import Mathlib

/-!
Verification development for `drive_price_scraper.py`.

The Python source is shallowly embedded: pure helper functions become Lean
functions, the per-row dictionaries become a `Row` structure, Python `dict`
(insertion ordered) becomes an ordered association list, Python `float`
arithmetic is modelled with `ℚ`, `Optional[int]` becomes `Option Int`, and
the HTTP layer is modelled by an oracle giving the outcome of each attempt.
Python `round` (banker's rounding, round half to even) is `roundHalfEven`.
-/

/-- Model of Python `round(x)` on a rational value: round half to even. -/
def roundHalfEven (q : ℚ) : Int :=
  if q - (⌊q⌋ : ℚ) < 1/2 then ⌊q⌋
  else if 1/2 < q - (⌊q⌋ : ℚ) then ⌊q⌋ + 1
  else if ⌊q⌋ % 2 = 0 then ⌊q⌋ else ⌊q⌋ + 1

/-- Model of Python `round(x, 3)`: round to three decimal places, half to even. -/
def roundQ3 (q : ℚ) : ℚ :=
  (roundHalfEven (q * 1000) : ℚ) / 1000

/-- Python `min(l)` for a nonempty list, `None` for the empty list
(used for the "best observed offer" characterisation of deduplication). -/
def minPrice? : List Int → Option Int
  | [] => none
  | p :: ps =>
    match minPrice? ps with
    | none => some p
    | some m => some (min p m)

/--
One CSV row of the scraper (`rows.append({...})` in `run_scrape_one`).
Only the fields consulted by deduplication, the outlier filter and the
summary statistics are kept: `asin`, `title`, `price_yen`, `category`.
`price_yen` is `None` exactly when the page fragment had no parsable price
(`isinstance(r.get("price_yen"), int)` is then false).
-/
structure Row where
  asin : String
  title : String
  price_yen : Option Int
  category : String
deriving DecidableEq, Repr

/-- Ordered association list standing for the Python insertion-ordered
`dict`: `best[asin] = r` updates in place when the key exists and appends
otherwise. -/
def updTable (best : List (String × Row)) (k : String) (r : Row) : List (String × Row) :=
  match best with
  | [] => [(k, r)]
  | (k', r') :: rest => if k' = k then (k, r) :: rest else (k', r') :: updTable rest k r

/-- Lookup in the ordered association list (`best[asin]` / `asin in best`). -/
def tblGet : List (String × Row) → String → Option Row
  | [], _ => none
  | (k', r') :: rest, k => if k' = k then some r' else tblGet rest k

/-- One iteration of the loop body of `_dedupe_by_asin`. -/
def dedupeStep (best : List (String × Row)) (r : Row) : List (String × Row) :=
  match tblGet best r.asin with
  | none => updTable best r.asin r
  | some a =>
    match a.price_yen, r.price_yen with
    | none, some _ => updTable best r.asin r
    | some pa, some pr => if pr < pa then updTable best r.asin r else best
    | _, _ => best

/-- Embedding of `_dedupe_by_asin`: fold the rows through the `best` table
and return `list(best.values())`. -/
def _dedupe_by_asin (rows : List Row) : List Row :=
  (rows.foldl dedupeStep []).map (·.2)

/-- The representative stored for an identifier after processing `rows`
(`best[asin]` at the end of the loop). -/
def repOf (rows : List Row) (a : String) : Option Row :=
  tblGet (rows.foldl dedupeStep []) a

/-- The rows of an identifier group, in input order. -/
def groupRows (rows : List Row) (a : String) : List Row :=
  rows.filter (fun r => r.asin = a)

/-- Best (lowest) known price of a group, `none` when no price is known. -/
def bestP (g : List Row) : Option Int :=
  minPrice? (g.filterMap (·.price_yen))

/-! ### Table lemmas for the insertion-ordered dictionary -/

theorem tblGet_updTable_self (b : List (String × Row)) (k : String) (r : Row) :
    tblGet (updTable b k r) k = some r := by
  induction b with
  | nil => simp [updTable, tblGet]
  | cons hd tl ih =>
    obtain ⟨k', r'⟩ := hd
    by_cases h : k' = k <;> simp [updTable, tblGet, h, ih]

theorem tblGet_updTable_ne (b : List (String × Row)) (k k' : String) (r : Row)
    (h : k' ≠ k) : tblGet (updTable b k r) k' = tblGet b k' := by
  have hk : ¬ (k = k') := fun hc => h hc.symm
  induction b with
  | nil => simp [updTable, tblGet, hk]
  | cons hd tl ih =>
    obtain ⟨k0, r0⟩ := hd
    by_cases h0 : k0 = k
    · subst h0
      simp [updTable, tblGet, hk]
    · simp [updTable, tblGet, h0, ih]

theorem tblGet_dedupeStep_ne (b : List (String × Row)) (r : Row) (a : String)
    (h : a ≠ r.asin) : tblGet (dedupeStep b r) a = tblGet b a := by
  have hu := tblGet_updTable_ne b r.asin a r h
  unfold dedupeStep
  cases hb : tblGet b r.asin with
  | none => exact hu
  | some x =>
    cases hx : x.price_yen with
    | none =>
      cases hr : r.price_yen with
      | none => simp only [hx, hr]
      | some pr => simp only [hx, hr]; exact hu
    | some pa =>
      cases hr : r.price_yen with
      | none => simp only [hx, hr]
      | some pr =>
        simp only [hx, hr]
        by_cases hlt : pr < pa <;> simp [hlt, hu]

theorem repOf_append (rows : List Row) (r : Row) (a : String) :
    repOf (rows ++ [r]) a = tblGet (dedupeStep (rows.foldl dedupeStep []) r) a := by
  simp [repOf, List.foldl_append]

/-! ### Lemmas about the best (minimal known) price -/

theorem minPrice?_eq_none_iff (l : List Int) : minPrice? l = none ↔ l = [] := by
  cases l with
  | nil => simp [minPrice?]
  | cons p ps =>
    simp only [minPrice?]
    cases minPrice? ps <;> simp

theorem minPrice?_mem {l : List Int} {m : Int} (h : minPrice? l = some m) : m ∈ l := by
  induction l generalizing m with
  | nil => simp [minPrice?] at h
  | cons p ps ih =>
    simp only [minPrice?] at h
    cases hps : minPrice? ps with
    | none => rw [hps] at h; simp_all
    | some m' =>
      rw [hps] at h
      simp only [Option.some.injEq] at h
      rcases min_cases p m' with ⟨heq, _⟩ | ⟨heq, _⟩
      · simp [← h, heq]
      · right
        rw [← h, heq]
        exact ih hps

theorem minPrice?_le {l : List Int} {m : Int} (h : minPrice? l = some m) :
    ∀ x ∈ l, m ≤ x := by
  induction l generalizing m with
  | nil => simp
  | cons p ps ih =>
    intro x hx
    simp only [minPrice?] at h
    cases hps : minPrice? ps with
    | none =>
      rw [hps] at h
      have hmp : m = p := by simpa using h.symm
      have : ps = [] := (minPrice?_eq_none_iff ps).mp hps
      subst this
      simp_all
    | some m' =>
      rw [hps] at h
      simp only [Option.some.injEq] at h
      rcases List.mem_cons.mp hx with rfl | hx'
      · exact h ▸ min_le_left x m'
      · exact le_trans (h ▸ min_le_right p m') (ih hps x hx')

theorem minPrice?_append_singleton (l : List Int) (p : Int) :
    minPrice? (l ++ [p]) =
      some (match minPrice? l with | none => p | some m => min m p) := by
  induction l with
  | nil => simp [minPrice?]
  | cons q qs ih =>
    simp only [List.cons_append, minPrice?, List.append_eq]
    rw [ih]
    cases hqs : minPrice? qs <;> simp [hqs, min_assoc]

/-! ### Group and best-representative lemmas -/

theorem groupRows_append (rows : List Row) (r : Row) (a : String) :
    groupRows (rows ++ [r]) a
      = groupRows rows a ++ (if r.asin = a then [r] else []) := by
  simp only [groupRows, List.filter_append]
  congr 1
  by_cases h : r.asin = a <;> simp [h]

theorem bestP_append_none {r : Row} (g : List Row) (h : r.price_yen = none) :
    bestP (g ++ [r]) = bestP g := by
  simp [bestP, List.filterMap_append, h]

theorem bestP_append_some {r : Row} {p : Int} (g : List Row) (h : r.price_yen = some p) :
    bestP (g ++ [r])
      = some (match bestP g with | none => p | some m => min m p) := by
  simp only [bestP, List.filterMap_append]
  rw [show List.filterMap (fun x => x.price_yen) [r] = [p] by simp [h]]
  exact minPrice?_append_singleton _ p

theorem bestP_none_iff (g : List Row) :
    bestP g = none ↔ ∀ x ∈ g, x.price_yen = none := by
  simp [bestP, minPrice?_eq_none_iff, List.filterMap_eq_nil_iff]

/-- First row of a group whose price equals the best known price of the group. -/
def bestRep (g : List Row) : Option Row :=
  g.find? (fun r => r.price_yen == bestP g)

theorem bestRep_isSome {g : List Row} (h : g ≠ []) : ∃ x, bestRep g = some x := by
  rw [← Option.isSome_iff_exists, bestRep, List.find?_isSome]
  cases hb : bestP g with
  | none =>
    obtain ⟨y, g', rfl⟩ := List.exists_cons_of_ne_nil h
    refine ⟨y, List.mem_cons_self y g', ?_⟩
    have := (bestP_none_iff _).mp hb y (List.mem_cons_self y g')
    simp [this, hb]
  | some m =>
    have hm : m ∈ g.filterMap (·.price_yen) := minPrice?_mem hb
    obtain ⟨x, hxg, hxp⟩ := List.mem_filterMap.mp hm
    exact ⟨x, hxg, by simp [hxp, hb]⟩

theorem bestRep_price {g : List Row} {x : Row} (h : bestRep g = some x) :
    x.price_yen = bestP g := by
  have := List.find?_some h
  simpa using this

theorem bestRep_mem {g : List Row} {x : Row} (h : bestRep g = some x) : x ∈ g :=
  List.mem_of_find?_eq_some h

theorem find?_price_none_of_lt {g : List Row} {pa p : Int}
    (hbp : bestP g = some pa) (hlt : p < pa) :
    g.find? (fun x => x.price_yen == some p) = none := by
  rw [List.find?_eq_none]
  intro x hx
  cases hxp : x.price_yen with
  | none => simp [hxp]
  | some q =>
    have hq : q ∈ g.filterMap (·.price_yen) := List.mem_filterMap.mpr ⟨x, hx, hxp⟩
    have hle := minPrice?_le hbp q hq
    simp only [hxp, beq_iff_eq, Option.some.injEq]
    omega

theorem find?_price_none_of_all_none {g : List Row} (hbp : bestP g = none) (p : Int) :
    g.find? (fun x => x.price_yen == some p) = none := by
  rw [List.find?_eq_none]
  intro x hx
  have := (bestP_none_iff g).mp hbp x hx
  simp [this]

/-- Central characterisation of `_dedupe_by_asin`: the stored representative of
an identifier is the first row of its group whose price equals the group's
best (lowest known) price. -/
theorem repOf_eq_bestRep (rows : List Row) (a : String) :
    repOf rows a = bestRep (groupRows rows a) := by
  induction rows using List.reverseRecOn with
  | nil => rfl
  | append_singleton l r ih =>
    by_cases hra : r.asin = a
    · subst hra
      rw [repOf_append, groupRows_append, if_pos rfl]
      set T := l.foldl dedupeStep [] with hTdef
      have hT : tblGet T r.asin = bestRep (groupRows l r.asin) := ih
      by_cases hg : groupRows l r.asin = []
      · rw [hg] at hT
        simp only [bestRep, List.find?_nil] at hT
        unfold dedupeStep
        rw [hT, hg, tblGet_updTable_self]
        cases hp : r.price_yen with
        | none => simp [bestRep, bestP, List.find?, hp, minPrice?]
        | some p => simp [bestRep, bestP, List.find?, hp, minPrice?]
      · obtain ⟨r0, hr0⟩ := bestRep_isSome hg
        have hr0p : r0.price_yen = bestP (groupRows l r.asin) := bestRep_price hr0
        rw [hr0] at hT
        unfold dedupeStep
        rw [hT]
        cases hp : r.price_yen with
        | none =>
          have hbp := bestP_append_none (groupRows l r.asin) hp
          have hres : bestRep (groupRows l r.asin ++ [r]) = some r0 := by
            rw [bestRep, hbp, List.find?_append]
            have hfg : List.find? (fun x => x.price_yen == bestP (groupRows l r.asin))
                (groupRows l r.asin) = some r0 := hr0
            rw [hfg]
            rfl
          cases h0 : r0.price_yen <;> simp only [h0, hp] <;> rw [hT, hres]
        | some p =>
          cases h0 : r0.price_yen with
          | none =>
            have hbg : bestP (groupRows l r.asin) = none := h0 ▸ hr0p.symm
            have hbp := bestP_append_some (groupRows l r.asin) hp
            rw [hbg] at hbp
            have hbp2 : bestP (groupRows l r.asin ++ [r]) = some p := hbp
            have hres : bestRep (groupRows l r.asin ++ [r]) = some r := by
              rw [bestRep, hbp2, List.find?_append, find?_price_none_of_all_none hbg p]
              simp [List.find?, hp]
            simp only [h0, hp]
            rw [tblGet_updTable_self, hres]
          | some pa =>
            have hbg : bestP (groupRows l r.asin) = some pa := h0 ▸ hr0p.symm
            have hbp := bestP_append_some (groupRows l r.asin) hp
            rw [hbg] at hbp
            have hbp2 : bestP (groupRows l r.asin ++ [r]) = some (min pa p) := hbp
            by_cases hlt : p < pa
            · have hmin : min pa p = p := min_eq_right (le_of_lt hlt)
              rw [hmin] at hbp2
              have hres : bestRep (groupRows l r.asin ++ [r]) = some r := by
                rw [bestRep, hbp2, List.find?_append, find?_price_none_of_lt hbg hlt]
                simp [List.find?, hp]
              simp only [h0, hp, if_pos hlt]
              rw [tblGet_updTable_self, hres]
            · have hmin : min pa p = pa := min_eq_left (by omega)
              rw [hmin] at hbp2
              have hres : bestRep (groupRows l r.asin ++ [r]) = some r0 := by
                rw [bestRep, hbp2, List.find?_append]
                have hfg : List.find? (fun x => x.price_yen == some pa)
                    (groupRows l r.asin) = some r0 := by
                  rw [← hbg]; exact hr0
                rw [hfg]
                rfl
              simp only [h0, hp, if_neg hlt]
              rw [hT, hres]
    · rw [repOf_append, tblGet_dedupeStep_ne _ _ _ (fun hc => hra hc.symm),
        groupRows_append, if_neg hra, List.append_nil]
      exact ih

/-! ### Well-formedness of the dictionary and shape of the output list -/

/-- Every entry stores a row whose identifier is its key, and keys are unique
(Python `dict` semantics). -/
def WfTable (T : List (String × Row)) : Prop :=
  (∀ e ∈ T, (e.2).asin = e.1) ∧ (T.map (·.1)).Nodup

theorem tblGet_eq_none_iff (T : List (String × Row)) (k : String) :
    tblGet T k = none ↔ k ∉ T.map (·.1) := by
  induction T with
  | nil => simp [tblGet]
  | cons hd tl ih =>
    obtain ⟨k0, r0⟩ := hd
    by_cases h : k0 = k
    · subst h; simp [tblGet]
    · simp only [tblGet, if_neg h, List.map_cons, List.mem_cons]
      rw [ih]
      constructor
      · intro hk hor
        rcases hor with rfl | hm
        · exact h rfl
        · exact hk hm
      · intro hk hm
        exact hk (Or.inr hm)

theorem updTable_keys_mem {T : List (String × Row)} {k : String} {x : Row} (r : Row)
    (h : tblGet T k = some x) :
    (updTable T k r).map (·.1) = T.map (·.1) := by
  induction T with
  | nil => simp [tblGet] at h
  | cons hd tl ih =>
    obtain ⟨k0, r0⟩ := hd
    by_cases h0 : k0 = k
    · subst h0; simp [updTable]
    · simp only [tblGet, if_neg h0] at h
      simp [updTable, h0, ih h]

theorem updTable_keys_new {T : List (String × Row)} {k : String} (r : Row)
    (h : tblGet T k = none) :
    (updTable T k r).map (·.1) = T.map (·.1) ++ [k] := by
  induction T with
  | nil => simp [updTable]
  | cons hd tl ih =>
    obtain ⟨k0, r0⟩ := hd
    by_cases h0 : k0 = k
    · subst h0; simp [tblGet] at h
    · simp only [tblGet, if_neg h0] at h
      simp [updTable, h0, ih h]

theorem updTable_mem {T : List (String × Row)} {k : String} {r : Row}
    {e : String × Row} (h : e ∈ updTable T k r) : e ∈ T ∨ e = (k, r) := by
  induction T with
  | nil => simp [updTable] at h; simp [h]
  | cons hd tl ih =>
    obtain ⟨k0, r0⟩ := hd
    by_cases h0 : k0 = k
    · subst h0
      simp only [updTable, if_pos rfl] at h
      rcases List.mem_cons.mp h with rfl | h
      · right; rfl
      · left; exact List.mem_cons_of_mem _ h
    · simp only [updTable, if_neg h0] at h
      rcases List.mem_cons.mp h with rfl | h
      · left; exact List.mem_cons_self _ _
      · rcases ih h with h | h
        · left; exact List.mem_cons_of_mem _ h
        · right; exact h

theorem wfTable_updTable {T : List (String × Row)} {k : String} {r : Row}
    (hwf : WfTable T) (hk : r.asin = k) : WfTable (updTable T k r) := by
  obtain ⟨hent, hnd⟩ := hwf
  constructor
  · intro e he
    rcases updTable_mem he with h | h
    · exact hent e h
    · subst h; exact hk
  · cases hget : tblGet T k with
    | some x => rw [updTable_keys_mem r hget]; exact hnd
    | none =>
      rw [updTable_keys_new r hget]
      have hk' : k ∉ T.map (·.1) := (tblGet_eq_none_iff T k).mp hget
      simp [List.nodup_append, hnd, hk']

theorem wfTable_dedupeStep {T : List (String × Row)} (r : Row)
    (hwf : WfTable T) : WfTable (dedupeStep T r) := by
  unfold dedupeStep
  cases htg : tblGet T r.asin with
  | none => exact wfTable_updTable hwf rfl
  | some x =>
    cases hx : x.price_yen with
    | none =>
      cases hr : r.price_yen with
      | none => simpa [hx, hr] using hwf
      | some pr => simp only [hx, hr]; exact wfTable_updTable hwf rfl
    | some pa =>
      cases hr : r.price_yen with
      | none => simpa [hx, hr] using hwf
      | some pr =>
        simp only [hx, hr]
        by_cases hlt : pr < pa <;> simp only [hlt, if_true, if_false]
        · exact wfTable_updTable hwf rfl
        · exact hwf

theorem wfTable_foldl (rows : List Row) :
    ∀ T, WfTable T → WfTable (rows.foldl dedupeStep T) := by
  induction rows with
  | nil => intro T h; exact h
  | cons r rs ih => intro T h; exact ih _ (wfTable_dedupeStep r h)

theorem wfTable_nil : WfTable [] := by constructor <;> simp

theorem mapsnd_filter_eq (T : List (String × Row)) (hwf : WfTable T) (a : String) :
    (T.map (·.2)).filter (fun r => r.asin = a) = (tblGet T a).toList := by
  induction T with
  | nil => simp [tblGet]
  | cons hd tl ih =>
    obtain ⟨k0, r0⟩ := hd
    obtain ⟨hent, hnd⟩ := hwf
    have h0 : r0.asin = k0 := hent (k0, r0) (List.mem_cons_self _ _)
    have hwf' : WfTable tl := ⟨fun e he => hent e (List.mem_cons_of_mem _ he),
      (List.nodup_cons.mp hnd).2⟩
    by_cases hk : k0 = a
    · subst hk
      have hnotin : k0 ∉ tl.map (·.1) := (List.nodup_cons.mp hnd).1
      have htl : (tl.map (·.2)).filter (fun r => r.asin = k0) = [] := by
        rw [List.filter_eq_nil_iff]
        intro x hx
        obtain ⟨e, he, rfl⟩ := List.mem_map.mp hx
        have := hent e (List.mem_cons_of_mem _ he)
        simp only [this, decide_eq_true_eq]
        intro hc
        exact hnotin (hc ▸ List.mem_map.mpr ⟨e, he, rfl⟩)
      simp [tblGet, h0, htl]
    · have :  ¬ (r0.asin = a) := by rw [h0]; exact hk
      simp [tblGet, hk, this, ih hwf']

/-- The deduplicated output contains, for each identifier, exactly the stored
representative. -/
theorem dedupe_filter_eq (rows : List Row) (a : String) :
    (_dedupe_by_asin rows).filter (fun r => r.asin = a) = (repOf rows a).toList := by
  unfold _dedupe_by_asin repOf
  exact mapsnd_filter_eq _ (wfTable_foldl rows [] wfTable_nil) a

theorem minPrice?_perm {l1 l2 : List Int} (h : l1.Perm l2) :
    minPrice? l1 = minPrice? l2 := by
  cases h1 : minPrice? l1 with
  | none =>
    rw [minPrice?_eq_none_iff] at h1
    subst h1
    have h2 : l2 = [] := h.symm.eq_nil
    subst h2
    rfl
  | some m =>
    cases h2 : minPrice? l2 with
    | none =>
      rw [minPrice?_eq_none_iff] at h2
      subst h2
      have : l1 = [] := h.eq_nil
      subst this
      simp [minPrice?] at h1
    | some m' =>
      have hm1 : m ∈ l2 := h.mem_iff.mp (minPrice?_mem h1)
      have hm2 : m' ∈ l1 := h.mem_iff.mpr (minPrice?_mem h2)
      have := minPrice?_le h2 m hm1
      have := minPrice?_le h1 m' hm2
      congr 1
      omega

/-! ### Example rows used by the deduplication claims -/

/-- Example from the spec: two fragments with the same identifier, one priced
5000, one without a known price. -/
def exR1 : Row := ⟨"B00EXAMPLE", "Example drive A", some 5000, "drive_internal"⟩

def exR2 : Row := ⟨"B00EXAMPLE", "Example drive B", none, "drive_internal"⟩

/-- Two rows with the same identifier, both without a known price, differing
in their title. -/
def exT1 : Row := ⟨"B00TIEASIN", "first listing", none, "raw"⟩

def exT2 : Row := ⟨"B00TIEASIN", "second listing", none, "raw"⟩

/-- C4: deduplication keeps exactly one representative per identifier group;
the representative has a known price whenever any record of the group has
one, and its price is minimal among the known prices of the group. -/
theorem dedupe_keeps_best (rows : List Row) (a : String)
    (h : groupRows rows a ≠ []) :
    ∃ rep, (_dedupe_by_asin rows).filter (fun r => r.asin = a) = [rep]
      ∧ rep ∈ groupRows rows a
      ∧ rep.price_yen = bestP (groupRows rows a)
      ∧ ((∃ x ∈ groupRows rows a, x.price_yen ≠ none) → rep.price_yen ≠ none)
      ∧ (∀ x p, x ∈ groupRows rows a → x.price_yen = some p →
          ∃ q, rep.price_yen = some q ∧ q ≤ p) := by
  obtain ⟨rep, hrep⟩ := bestRep_isSome h
  refine ⟨rep, ?_, bestRep_mem hrep, bestRep_price hrep, ?_, ?_⟩
  · rw [dedupe_filter_eq, repOf_eq_bestRep, hrep]
    rfl
  · rintro ⟨x, hx, hxp⟩
    have hp := bestRep_price hrep
    cases hbp : bestP (groupRows rows a) with
    | none => exact absurd ((bestP_none_iff _).mp hbp x hx) hxp
    | some m => rw [hp, hbp]; simp
  · intro x p hx hxp
    have hp := bestRep_price hrep
    have hmem : p ∈ (groupRows rows a).filterMap (·.price_yen) :=
      List.mem_filterMap.mpr ⟨x, hx, hxp⟩
    cases hbp : bestP (groupRows rows a) with
    | none =>
      rw [bestP, minPrice?_eq_none_iff] at hbp
      rw [hbp] at hmem
      simp at hmem
    | some m =>
      have hle : minPrice? ((groupRows rows a).filterMap (·.price_yen)) = some m := hbp
      exact ⟨m, by rw [hp, hbp], minPrice?_le hle p hmem⟩

/-- Witness for C4 at the spec's example: the 5000-priced record is kept over
the unknown-priced record with the same identifier. -/
theorem dedupe_keeps_best_witness :
    (∃ rep, (_dedupe_by_asin [exR1, exR2]).filter (fun r => r.asin = "B00EXAMPLE") = [rep]
      ∧ rep ∈ groupRows [exR1, exR2] "B00EXAMPLE"
      ∧ rep.price_yen = bestP (groupRows [exR1, exR2] "B00EXAMPLE")
      ∧ ((∃ x ∈ groupRows [exR1, exR2] "B00EXAMPLE", x.price_yen ≠ none) → rep.price_yen ≠ none)
      ∧ (∀ x p, x ∈ groupRows [exR1, exR2] "B00EXAMPLE" → x.price_yen = some p →
          ∃ q, rep.price_yen = some q ∧ q ≤ p))
    ∧ _dedupe_by_asin [exR1, exR2] = [exR1] :=
  ⟨dedupe_keeps_best [exR1, exR2] "B00EXAMPLE" (by decide), by decide⟩

/-- C5 (amended): deduplication is order-invariant at the level of the
representative's price: for permuted inputs, the representative of every
identifier exists in one output iff it exists in the other, and carries the
same (possibly unknown) price. The full record can differ under ties. -/
theorem dedupe_price_order_invariant (l1 l2 : List Row) (hperm : l1.Perm l2)
    (a : String) :
    (repOf l1 a).map (·.price_yen) = (repOf l2 a).map (·.price_yen) := by
  rw [repOf_eq_bestRep, repOf_eq_bestRep]
  have hgp : (groupRows l1 a).Perm (groupRows l2 a) := hperm.filter _
  have hbp : bestP (groupRows l1 a) = bestP (groupRows l2 a) :=
    minPrice?_perm (hgp.filterMap _)
  by_cases hg : groupRows l1 a = []
  · have hg2 : groupRows l2 a = [] := (hg ▸ hgp).symm.eq_nil
    rw [hg, hg2]
  · have hg2 : groupRows l2 a ≠ [] := fun hc => hg (hc ▸ hgp.symm).symm.eq_nil
    obtain ⟨x1, h1⟩ := bestRep_isSome hg
    obtain ⟨x2, h2⟩ := bestRep_isSome hg2
    rw [h1, h2]
    simp [bestRep_price h1, bestRep_price h2, hbp]

/-- Witness for C5 (amended) on a concrete permutation. -/
theorem dedupe_price_order_invariant_witness :
    (repOf [exR1, exR2] "B00EXAMPLE").map (·.price_yen)
      = (repOf [exR2, exR1] "B00EXAMPLE").map (·.price_yen) :=
  dedupe_price_order_invariant [exR1, exR2] [exR2, exR1] (by decide) "B00EXAMPLE"

/-- Counterexample to C5 as stated: with two tied records (same identifier,
both prices unknown, different titles), the representative record depends on
input order. -/
theorem dedupe_order_dependent_counterexample :
    _dedupe_by_asin [exT1, exT2] = [exT1]
      ∧ _dedupe_by_asin [exT2, exT1] = [exT2]
      ∧ exT1 ≠ exT2 := by decide

/-- C10: when a later row ties the stored representative under the price rule
(both unknown, or equal known prices), the stored representative is kept; in
particular for two tying rows the first in input order is kept. -/
theorem dedupe_tie_keeps_first :
    (∀ (rows : List Row) (r r0 : Row), repOf rows r.asin = some r0 →
      ((r0.price_yen = none ∧ r.price_yen = none) ∨
        (∃ p, r0.price_yen = some p ∧ r.price_yen = some p)) →
      repOf (rows ++ [r]) r.asin = some r0)
  ∧ (∀ r1 r2 : Row, r1.asin = r2.asin →
      ((r1.price_yen = none ∧ r2.price_yen = none) ∨
        (∃ p, r1.price_yen = some p ∧ r2.price_yen = some p)) →
      _dedupe_by_asin [r1, r2] = [r1]) := by
  constructor
  · intro rows r r0 hrep htie
    rw [repOf_append]
    set T := rows.foldl dedupeStep [] with hTdef
    have hget : tblGet T r.asin = some r0 := hrep
    unfold dedupeStep
    rw [hget]
    rcases htie with ⟨h0, h1⟩ | ⟨p, h0, h1⟩
    · simp only [h0, h1]
      exact hget
    · simp only [h0, h1, lt_self_iff_false, if_false]
      exact hget
  · intro r1 r2 hasin htie
    show (dedupeStep (dedupeStep [] r1) r2).map (·.2) = [r1]
    have hstep1 : dedupeStep [] r1 = [(r1.asin, r1)] := rfl
    rw [hstep1]
    have hget : tblGet [(r1.asin, r1)] r2.asin = some r1 := by
      simp [tblGet, hasin]
    unfold dedupeStep
    rw [hget]
    rcases htie with ⟨h0, h1⟩ | ⟨p, h0, h1⟩
    · simp [h0, h1]
    · simp [h0, h1]

/-- Witness for C10 on concrete tied rows. -/
theorem dedupe_tie_keeps_first_witness :
    repOf ([exT1] ++ [exT2]) exT2.asin = some exT1
      ∧ _dedupe_by_asin [exT1, exT2] = [exT1] :=
  ⟨dedupe_tie_keeps_first.1 [exT1] exT2 exT1 (by decide) (Or.inl (by decide)),
   dedupe_tie_keeps_first.2 exT1 exT2 (by decide) (Or.inl (by decide))⟩

/-! ### Median, outlier filter (`run_scrape_one` filter block, `calc_median`) -/

/-- Model of `statistics.median` on a list of integers, as an exact rational:
middle element of the sorted list, or the mean of the two middle elements. -/
def medianQ (values : List Int) : ℚ :=
  let s := List.insertionSort (· ≤ ·) values
  let n := s.length
  if n % 2 = 1 then ((s.getD (n / 2) 0 : Int) : ℚ)
  else (((s.getD (n / 2 - 1) 0 : Int) : ℚ) + ((s.getD (n / 2) 0 : Int) : ℚ)) / 2

/-- Embedding of `calc_median`: `0` for the empty list, otherwise
`int(round(statistics.median(values)))` (Python `round` = half to even). -/
def calc_median (values : List Int) : Int :=
  if values = [] then 0 else roundHalfEven (medianQ values)

/-- Loop body of the outlier-filter block of `run_scrape_one`: keeps the rows
whose known price is inside the thresholds, counting the removals on each
side; rows with unknown price are always kept. -/
def filterLoop (tlo thi : ℚ) : List Row → List Row × Nat × Nat
  | [] => ([], 0, 0)
  | r :: rest =>
    let acc := filterLoop tlo thi rest
    match r.price_yen with
    | some p =>
      if (p : ℚ) < tlo then (acc.1, acc.2.1 + 1, acc.2.2)
      else if thi < (p : ℚ) then (acc.1, acc.2.1, acc.2.2 + 1)
      else (r :: acc.1, acc.2.1, acc.2.2)
    | none => (r :: acc.1, acc.2.1, acc.2.2)

/-- Embedding of the outlier-filter block of `run_scrape_one` (lines
982-1013): skipped in raw mode or on an empty retained set; otherwise the
median of the known prices gives the two ratio thresholds. -/
def priceFilter (raw : Bool) (lowRat highRat : ℚ) (filtered : List Row) : List Row :=
  if ¬ raw ∧ filtered ≠ [] then
    let valid_prices := filtered.filterMap (·.price_yen)
    if valid_prices ≠ [] then
      let median_price := calc_median valid_prices
      let thresh_low := (median_price : ℚ) * lowRat
      let thresh_high := (median_price : ℚ) * highRat
      (filterLoop thresh_low thresh_high filtered).1
    else filtered
  else filtered

/-- Keep-condition of the outlier filter in the claim's terms: unknown price,
or known price between the two thresholds (inclusive). -/
def keepRow (tlo thi : ℚ) (r : Row) : Bool :=
  match r.price_yen with
  | none => true
  | some p => decide (tlo ≤ (p : ℚ)) && decide ((p : ℚ) ≤ thi)

theorem filterLoop_fst (tlo thi : ℚ) (rows : List Row) :
    (filterLoop tlo thi rows).1 = rows.filter (keepRow tlo thi) := by
  induction rows with
  | nil => rfl
  | cons r rest ih =>
    simp only [filterLoop]
    cases hp : r.price_yen with
    | none => simp [keepRow, hp, ih, List.filter_cons]
    | some p =>
      by_cases h1 : (p : ℚ) < tlo
      · simp [keepRow, hp, h1, ih, List.filter_cons, not_le.mpr h1]
      · by_cases h2 : thi < (p : ℚ)
        · simp [keepRow, hp, h1, h2, ih, List.filter_cons, not_le.mpr h2,
            not_lt.mp h1]
        · simp [keepRow, hp, h1, h2, ih, List.filter_cons, not_lt.mp h1,
            not_lt.mp h2]

theorem priceFilter_no_prices (lowRat highRat : ℚ) (rows : List Row)
    (h : rows.filterMap (·.price_yen) = []) :
    priceFilter false lowRat highRat rows = rows := by
  unfold priceFilter
  by_cases hr : rows = [] <;> simp [hr, h]

theorem priceFilter_eq_filter (lowRat highRat : ℚ) (rows : List Row)
    (h : rows.filterMap (·.price_yen) ≠ []) :
    priceFilter false lowRat highRat rows
      = rows.filter (keepRow
          ((calc_median (rows.filterMap (·.price_yen)) : ℚ) * lowRat)
          ((calc_median (rows.filterMap (·.price_yen)) : ℚ) * highRat)) := by
  have hr : rows ≠ [] := by
    intro hc; subst hc; simp at h
  unfold priceFilter
  simp only [hr, h, not_false_iff, ne_eq, and_self, if_true, ite_true,
    not_false_eq_true]
  exact filterLoop_fst _ _ rows

/-- C2: in raw mode the outlier filter is skipped; otherwise, with at least
one known price, it keeps exactly the rows whose known price lies between
`median * low_ratio` and `median * high_ratio` (median per `calc_median`),
and rows with unknown price are never dropped. -/
theorem outlier_filter_spec (lowRat highRat : ℚ) (rows : List Row) :
    priceFilter true lowRat highRat rows = rows
  ∧ (rows.filterMap (·.price_yen) ≠ [] →
      priceFilter false lowRat highRat rows
        = rows.filter (keepRow
            ((calc_median (rows.filterMap (·.price_yen)) : ℚ) * lowRat)
            ((calc_median (rows.filterMap (·.price_yen)) : ℚ) * highRat)))
  ∧ (∀ r ∈ rows, r.price_yen = none → r ∈ priceFilter false lowRat highRat rows) := by
  refine ⟨by simp [priceFilter], priceFilter_eq_filter lowRat highRat rows, ?_⟩
  intro r hr hp
  by_cases h : rows.filterMap (·.price_yen) = []
  · rw [priceFilter_no_prices lowRat highRat rows h]
    exact hr
  · rw [priceFilter_eq_filter lowRat highRat rows h]
    exact List.mem_filter.mpr ⟨hr, by simp [keepRow, hp]⟩

/-! Rows realising the spec's outlier-filter example. -/

def exF1 : Row := ⟨"B000000001", "t1", some 1000, "drive_internal_sata"⟩

def exF2 : Row := ⟨"B000000002", "t2", some 1050, "drive_internal_sata"⟩

def exF3 : Row := ⟨"B000000003", "t3", some 1100, "drive_internal_sata"⟩

def exF4 : Row := ⟨"B000000004", "t4", some 1080, "drive_internal_sata"⟩

def exF5 : Row := ⟨"B000000005", "t5", some 9000, "drive_internal_sata"⟩

def exFilterRows : List Row := [exF1, exF2, exF3, exF4, exF5]

unseal Rat.mul Rat.add Rat.sub Rat.inv in
/-- Witness for C2 at the spec's example: median 1080, thresholds 324 and
2700, only the 9000 item removed, 4 items remain. -/
theorem outlier_filter_spec_witness :
    calc_median [1000, 1050, 1100, 1080, 9000] = 1080
  ∧ (1080 : ℚ) * (3/10) = 324
  ∧ (1080 : ℚ) * (5/2) = 2700
  ∧ priceFilter false (3/10) (5/2) exFilterRows = [exF1, exF2, exF3, exF4]
  ∧ (priceFilter false (3/10) (5/2) exFilterRows).length = 4 := by
  have h := (outlier_filter_spec (3/10) (5/2) exFilterRows).2.1 (by decide)
  refine ⟨by decide, by decide, by decide, ?_, ?_⟩
  · rw [h]; decide
  · rw [h]; decide

/-- C3 (amended): the outlier filter is idempotent whenever the median of the
surviving known prices equals the original median (in particular whenever the
first pass removes nothing); it is not idempotent in general. -/
theorem outlier_filter_idempotent_amended (lowRat highRat : ℚ) (rows : List Row)
    (hmed : calc_median ((priceFilter false lowRat highRat rows).filterMap (·.price_yen))
          = calc_median (rows.filterMap (·.price_yen))) :
    priceFilter false lowRat highRat (priceFilter false lowRat highRat rows)
      = priceFilter false lowRat highRat rows := by
  by_cases h0 : rows.filterMap (·.price_yen) = []
  · rw [priceFilter_no_prices lowRat highRat rows h0,
      priceFilter_no_prices lowRat highRat rows h0]
  · have hout := priceFilter_eq_filter lowRat highRat rows h0
    by_cases h1 : (priceFilter false lowRat highRat rows).filterMap (·.price_yen) = []
    · exact priceFilter_no_prices lowRat highRat _ h1
    · rw [priceFilter_eq_filter lowRat highRat _ h1, hmed]
      rw [List.filter_eq_self]
      intro x hx
      rw [hout] at hx
      exact (List.mem_filter.mp hx).2

/-! Rows refuting idempotence of the outlier filter. -/

def exI1 : Row := ⟨"B00000I001", "i1", some 100, "drive_internal_sata"⟩

def exI2 : Row := ⟨"B00000I002", "i2", some 100, "drive_internal_sata"⟩

def exI3 : Row := ⟨"B00000I003", "i3", some 251, "drive_internal_sata"⟩

def exI4 : Row := ⟨"B00000I004", "i4", some 900, "drive_internal_sata"⟩

def exIdemRows : List Row := [exI1, exI2, exI3, exI4]

/-- Rows on which the first pass removes nothing, for the amended-claim
witness. -/
def exKeepRows : List Row :=
  [⟨"B00000W001", "w1", some 100, "drive_internal_sata"⟩,
   ⟨"B00000W002", "w2", some 200, "drive_internal_sata"⟩,
   ⟨"B00000W003", "w3", some 300, "drive_internal_sata"⟩]

unseal Rat.mul Rat.add Rat.sub Rat.inv in
/-- Counterexample to C3 as stated: on prices 100, 100, 251, 900 with the
default ratios, the first pass has median 176 and removes 900; the second
pass recomputes median 100, threshold 250, and removes 251 as well. -/
theorem outlier_filter_not_idempotent_counterexample :
    priceFilter false (3/10) (5/2) exIdemRows = [exI1, exI2, exI3]
  ∧ priceFilter false (3/10) (5/2) [exI1, exI2, exI3] = [exI1, exI2]
  ∧ priceFilter false (3/10) (5/2) (priceFilter false (3/10) (5/2) exIdemRows)
      ≠ priceFilter false (3/10) (5/2) exIdemRows := by
  refine ⟨by decide, by decide, by decide⟩

unseal Rat.mul Rat.add Rat.sub Rat.inv in
/-- Witness for C3 (amended) on rows where the first pass removes nothing. -/
theorem outlier_filter_idempotent_amended_witness :
    priceFilter false (3/10) (5/2) (priceFilter false (3/10) (5/2) exKeepRows)
      = priceFilter false (3/10) (5/2) exKeepRows :=
  outlier_filter_idempotent_amended (3/10) (5/2) exKeepRows (by decide)

/-! ### Summary statistics (`stats_summary`) -/

/-- Embedding of `stats_summary`: `None` on an empty price list, otherwise
`(min(ps), int(round(sum(ps) / len(ps))), max(ps))`. The Python
`isinstance(p, int)` filter is the identity on an integer list. -/
def stats_summary (prices : List Int) : Option (Int × Int × Int) :=
  match prices with
  | [] => none
  | p :: ps =>
    some (ps.foldl min p,
      roundHalfEven (((p :: ps).sum : ℚ) / (((p :: ps).length : Int) : ℚ)),
      ps.foldl max p)

theorem roundHalfEven_spec (q : ℚ) :
    |q - (roundHalfEven q : ℚ)| ≤ 1/2
    ∧ (|q - (roundHalfEven q : ℚ)| = 1/2 → roundHalfEven q % 2 = 0) := by
  unfold roundHalfEven
  have hf0 : (0:ℚ) ≤ q - (⌊q⌋ : ℚ) := by
    have := Int.floor_le q
    linarith
  have hf1 : q - (⌊q⌋ : ℚ) < 1 := by
    have := Int.lt_floor_add_one q
    linarith
  by_cases h1 : q - (⌊q⌋:ℚ) < 1/2
  · simp only [h1, if_true]
    constructor
    · rw [abs_of_nonneg hf0]; linarith
    · intro he; rw [abs_of_nonneg hf0] at he; linarith
  · by_cases h2 : 1/2 < q - (⌊q⌋:ℚ)
    · simp only [h1, h2, if_true, if_false]
      push_cast
      constructor
      · rw [abs_of_nonpos (by linarith)]; linarith
      · intro he; rw [abs_of_nonpos (by linarith)] at he; linarith
    · have heq : q - (⌊q⌋:ℚ) = 1/2 := le_antisymm (not_lt.mp h2) (not_lt.mp h1)
      simp only [h1, h2, if_false]
      by_cases h3 : ⌊q⌋ % 2 = 0
      · simp only [h3, if_true]
        constructor
        · rw [abs_of_nonneg hf0]; linarith
        · intro _; trivial
      · simp only [h3, if_false]
        push_cast
        constructor
        · rw [abs_of_nonpos (by linarith)]; linarith
        · intro _; omega

/-- C8 (amended): for a non-empty price list, the reported average is the
arithmetic mean rounded to the nearest integer with ties rounded to even
(Python `round`), not rounded half-up. -/
theorem stats_avg_half_even_amended (prices : List Int) (h : prices ≠ []) :
    ∃ mn a mx, stats_summary prices = some (mn, a, mx)
      ∧ |((prices.sum : ℚ) / ((prices.length : Int) : ℚ)) - (a : ℚ)| ≤ 1/2
      ∧ (|((prices.sum : ℚ) / ((prices.length : Int) : ℚ)) - (a : ℚ)| = 1/2 →
          a % 2 = 0) := by
  obtain ⟨p, ps, rfl⟩ := List.exists_cons_of_ne_nil h
  exact ⟨_, _, _, rfl,
    (roundHalfEven_spec (((p :: ps).sum : ℚ) / (((p :: ps).length : Int) : ℚ))).1,
    (roundHalfEven_spec (((p :: ps).sum : ℚ) / (((p :: ps).length : Int) : ℚ))).2⟩

/-- Witness for C8 (amended) on the list `[2, 3]`. -/
theorem stats_avg_half_even_amended_witness :
    ∃ mn a mx, stats_summary [2, 3] = some (mn, a, mx)
      ∧ |((([2, 3] : List Int).sum : ℚ) / ((([2, 3] : List Int).length : Int) : ℚ)) - (a : ℚ)| ≤ 1/2
      ∧ (|((([2, 3] : List Int).sum : ℚ) / ((([2, 3] : List Int).length : Int) : ℚ)) - (a : ℚ)| = 1/2 →
          a % 2 = 0) :=
  stats_avg_half_even_amended [2, 3] (by decide)

unseal Rat.mul Rat.add Rat.sub Rat.inv in
/-- Counterexample to C8 as stated: the mean of 2 and 3 is 2.5; rounded
half-up (Mathlib `round`) that is 3, but `stats_summary` reports avg 2
(Python `round` ties to even). -/
theorem stats_avg_not_half_up_counterexample :
    stats_summary [2, 3] = some (2, 2, 3)
  ∧ round ((5 : ℚ) / 2) = 3
  ∧ (2 : Int) ≠ 3 := by
  refine ⟨by decide, ?_, by decide⟩
  rw [round_eq]
  norm_num

/-! ### Retrieval engine (`fetch_html`) -/

/-- Outcome of one HTTP GET attempt: a response with a status code and a
body, or a transport-level exception. -/
inductive FetchAttempt where
  | resp (status : Nat) (body : String)
  | exn (name : String)
deriving DecidableEq

/-- Failure surfaced by `fetch_html`: an HTTP error status or an exception
name. -/
inductive FetchErr where
  | http (status : Nat)
  | exc (name : String)
deriving DecidableEq

/-- Observable behaviour of `fetch_html`: final result (`error none` would be
`raise None`, unreachable with the default schedule), number of GET attempts
made, and the nonzero waits slept between attempts. -/
structure FetchResult where
  result : Except (Option FetchErr) String
  attempts : Nat
  waits : List Nat

/-- The pre-check `resp.status_code in (408, 429, 503, 504)`. -/
def retryableStatus (c : Nat) : Bool :=
  c = 408 || c = 429 || c = 503 || c = 504

/-- Embedding of the retry loop of `fetch_html` over an oracle giving the
outcome of each attempt (attempts numbered from 1, as in
`enumerate(sleep_retry, start=1)`). A nonzero wait is slept before the GET;
statuses 408/429/503/504 and any exception set `last_err` and continue;
`raise_for_status` raises on statuses 400-599, which is re-raised
immediately when not retryable; other statuses return the body; after the
loop the last failure is raised. -/
def fetchLoop (o : Nat → FetchAttempt) :
    List Nat → Nat → Option FetchErr → FetchResult
  | [], _, lastErr => ⟨.error lastErr, 0, []⟩
  | w :: rest, i, lastErr =>
    let ws := if w ≠ 0 then [w] else []
    match o i with
    | .resp c body =>
      if retryableStatus c then
        let r := fetchLoop o rest (i + 1) (some (.http c))
        ⟨r.result, r.attempts + 1, ws ++ r.waits⟩
      else if 400 ≤ c ∧ c < 600 then ⟨.error (some (.http c)), 1, ws⟩
      else ⟨.ok body, 1, ws⟩
    | .exn n =>
      let r := fetchLoop o rest (i + 1) (some (.exc n))
      ⟨r.result, r.attempts + 1, ws ++ r.waits⟩

/-- Embedding of `fetch_html` with its default schedule
`sleep_retry=(0, 2, 5, 9)`. -/
def fetch_html (o : Nat → FetchAttempt) : FetchResult :=
  fetchLoop o [0, 2, 5, 9] 1 none

/-- A retryable attempt outcome: a retryable status or any exception. -/
def retryFail (a : FetchAttempt) : Bool :=
  match a with
  | .resp c _ => retryableStatus c
  | .exn _ => true

/-- The failure recorded for an attempt outcome. -/
def failOf (a : FetchAttempt) : FetchErr :=
  match a with
  | .resp c _ => .http c
  | .exn n => .exc n

/-- Retry policy in the spec's words: at most 4 attempts; the first attempt
that does not fail retryably ends the loop (body for a non-error status,
immediate raise for any other HTTP error status); if all four attempts fail
retryably, the failure of the fourth is raised; the waits 0, 2, 5, 9 precede
attempts 1 to 4, the zero wait being skipped. -/
def fetch_policy_spec (o : Nat → FetchAttempt) : FetchResult :=
  match [1, 2, 3, 4].find? (fun k => ! retryFail (o k)) with
  | some k =>
    ⟨(match o k with
      | .resp c b => if 400 ≤ c ∧ c < 600 then .error (some (.http c)) else .ok b
      | .exn n => .error (some (.exc n))),
     k, List.take (k - 1) [2, 5, 9]⟩
  | none => ⟨.error (some (failOf (o 4))), 4, [2, 5, 9]⟩

theorem fetchLoop_retry (o : Nat → FetchAttempt) (w : Nat) (rest : List Nat)
    (i : Nat) (le : Option FetchErr) (h : retryFail (o i) = true) :
    fetchLoop o (w :: rest) i le =
      ⟨(fetchLoop o rest (i + 1) (some (failOf (o i)))).result,
       (fetchLoop o rest (i + 1) (some (failOf (o i)))).attempts + 1,
       (if w ≠ 0 then [w] else []) ++ (fetchLoop o rest (i + 1) (some (failOf (o i)))).waits⟩ := by
  rcases ho : o i with ⟨c, b⟩ | n
  · rw [ho] at h
    simp only [retryFail] at h
    simp [fetchLoop, ho, h, failOf]
  · simp [fetchLoop, ho, failOf]

theorem fetchLoop_stop_err (o : Nat → FetchAttempt) (w : Nat) (rest : List Nat)
    (i : Nat) (le : Option FetchErr) (c : Nat) (b : String) (ho : o i = .resp c b)
    (hnr : retryableStatus c = false) (herr : 400 ≤ c ∧ c < 600) :
    fetchLoop o (w :: rest) i le =
      ⟨.error (some (.http c)), 1, if w ≠ 0 then [w] else []⟩ := by
  simp [fetchLoop, ho, hnr, herr]

theorem fetchLoop_stop_ok (o : Nat → FetchAttempt) (w : Nat) (rest : List Nat)
    (i : Nat) (le : Option FetchErr) (c : Nat) (b : String) (ho : o i = .resp c b)
    (hnr : retryableStatus c = false) (herr : ¬ (400 ≤ c ∧ c < 600)) :
    fetchLoop o (w :: rest) i le =
      ⟨.ok b, 1, if w ≠ 0 then [w] else []⟩ := by
  simp [fetchLoop, ho, hnr, herr]

/-- C6: `fetch_html` implements exactly the spec's retry policy; in
particular it makes at most 4 attempts and sleeps the fixed schedule 2, 5, 9
before those of the attempts 2-4 that happen. -/
theorem fetch_html_retry_policy (o : Nat → FetchAttempt) :
    fetch_html o = fetch_policy_spec o
  ∧ (fetch_html o).attempts ≤ 4
  ∧ (fetch_html o).waits = List.take ((fetch_html o).attempts - 1) [2, 5, 9] := by
  have heq : fetch_html o = fetch_policy_spec o := by
    by_cases r1 : retryFail (o 1) = true
    · by_cases r2 : retryFail (o 2) = true
      · by_cases r3 : retryFail (o 3) = true
        · by_cases r4 : retryFail (o 4) = true
          · rw [fetch_html, fetchLoop_retry o 0 _ 1 none r1,
              fetchLoop_retry o 2 _ 2 _ r2, fetchLoop_retry o 5 _ 3 _ r3,
              fetchLoop_retry o 9 _ 4 _ r4]
            simp [fetchLoop, fetch_policy_spec, List.find?, r1, r2, r3, r4]
          · rcases ho : o 4 with ⟨c, b⟩ | n
            · have hnr : retryableStatus c = false := by
                rw [ho] at r4; simpa [retryFail] using r4
              have hrs4 : retryFail (FetchAttempt.resp c b) = false := by
                simp [retryFail, hnr]
              by_cases herr : 400 ≤ c ∧ c < 600
              · rw [fetch_html, fetchLoop_retry o 0 _ 1 none r1,
                  fetchLoop_retry o 2 _ 2 _ r2, fetchLoop_retry o 5 _ 3 _ r3,
                  fetchLoop_stop_err o 9 _ 4 _ c b ho hnr herr]
                simp [fetch_policy_spec, List.find?, r1, r2, r3, hrs4, ho, herr]
              · rw [fetch_html, fetchLoop_retry o 0 _ 1 none r1,
                  fetchLoop_retry o 2 _ 2 _ r2, fetchLoop_retry o 5 _ 3 _ r3,
                  fetchLoop_stop_ok o 9 _ 4 _ c b ho hnr herr]
                simp [fetch_policy_spec, List.find?, r1, r2, r3, hrs4, ho, herr]
            · rw [ho] at r4
              simp [retryFail] at r4
        · rcases ho : o 3 with ⟨c, b⟩ | n
          · have hnr : retryableStatus c = false := by
              rw [ho] at r3; simpa [retryFail] using r3
            have hrs3 : retryFail (FetchAttempt.resp c b) = false := by
              simp [retryFail, hnr]
            by_cases herr : 400 ≤ c ∧ c < 600
            · rw [fetch_html, fetchLoop_retry o 0 _ 1 none r1,
                fetchLoop_retry o 2 _ 2 _ r2,
                fetchLoop_stop_err o 5 _ 3 _ c b ho hnr herr]
              simp [fetch_policy_spec, List.find?, r1, r2, hrs3, ho, herr]
            · rw [fetch_html, fetchLoop_retry o 0 _ 1 none r1,
                fetchLoop_retry o 2 _ 2 _ r2,
                fetchLoop_stop_ok o 5 _ 3 _ c b ho hnr herr]
              simp [fetch_policy_spec, List.find?, r1, r2, hrs3, ho, herr]
          · rw [ho] at r3
            simp [retryFail] at r3
      · rcases ho : o 2 with ⟨c, b⟩ | n
        · have hnr : retryableStatus c = false := by
            rw [ho] at r2; simpa [retryFail] using r2
          have hrs2 : retryFail (FetchAttempt.resp c b) = false := by
            simp [retryFail, hnr]
          by_cases herr : 400 ≤ c ∧ c < 600
          · rw [fetch_html, fetchLoop_retry o 0 _ 1 none r1,
              fetchLoop_stop_err o 2 _ 2 _ c b ho hnr herr]
            simp [fetch_policy_spec, List.find?, r1, hrs2, ho, herr]
          · rw [fetch_html, fetchLoop_retry o 0 _ 1 none r1,
              fetchLoop_stop_ok o 2 _ 2 _ c b ho hnr herr]
            simp [fetch_policy_spec, List.find?, r1, hrs2, ho, herr]
        · rw [ho] at r2
          simp [retryFail] at r2
    · rcases ho : o 1 with ⟨c, b⟩ | n
      · have hnr : retryableStatus c = false := by
          rw [ho] at r1; simpa [retryFail] using r1
        have hrs1 : retryFail (FetchAttempt.resp c b) = false := by
          simp [retryFail, hnr]
        by_cases herr : 400 ≤ c ∧ c < 600
        · rw [fetch_html, fetchLoop_stop_err o 0 _ 1 _ c b ho hnr herr]
          simp [fetch_policy_spec, List.find?, hrs1, ho, herr]
        · rw [fetch_html, fetchLoop_stop_ok o 0 _ 1 _ c b ho hnr herr]
          simp [fetch_policy_spec, List.find?, hrs1, ho, herr]
      · rw [ho] at r1
        simp [retryFail] at r1
  refine ⟨heq, ?_, ?_⟩ <;> rw [heq] <;> unfold fetch_policy_spec
  · cases hf : [1, 2, 3, 4].find? (fun k => ! retryFail (o k)) with
    | none => simp
    | some k =>
      have hk := List.mem_of_find?_eq_some hf
      simp only [List.mem_cons, List.not_mem_nil, or_false] at hk
      simp only []
      rcases hk with rfl | rfl | rfl | rfl <;> omega
  · cases hf : [1, 2, 3, 4].find? (fun k => ! retryFail (o k)) with
    | none => simp
    | some k => simp

/-! ### A small regular-expression engine

The scraper's patterns use only: case-insensitive literals, alternation,
sequencing, optional groups, greedy bounded character-class repetition
(`\d{2,5}`, `\s*`, `[A-Z0-9]{2,}`, `[34]`), and the word boundary `\b`.
They are embedded into this fragment and matched with a backtracking
matcher in continuation-passing style. -/

/-- Word characters for Python's `\b`, restricted to the scripts occurring
in this program's patterns and titles: ASCII alphanumerics and underscore,
hiragana, katakana (including the prolonged-sound mark), and CJK
ideographs. -/
def isWordChar (c : Char) : Bool :=
  c.isAlphanum || c = '_' ||
  (0x3041 ≤ c.toNat && c.toNat ≤ 0x3096) ||
  (0x30A1 ≤ c.toNat && c.toNat ≤ 0x30FA) || c.toNat = 0x30FC ||
  (0x4E00 ≤ c.toNat && c.toNat ≤ 0x9FFF)

/-- Python `\s`, restricted to ASCII whitespace and the ideographic space. -/
def isSpaceChar (c : Char) : Bool :=
  c = ' ' || c = '\t' || c = '\n' || c = '\r' ||
  c.toNat = 11 || c.toNat = 12 || c.toNat = 0x3000

/-- The character classes appearing in the scraper's patterns. With
`re.IGNORECASE`, `[A-Z0-9]` matches ASCII letters of both cases. -/
inductive CClass where
  | digit
  | space
  | upAlnum
  | d34
deriving DecidableEq

def CClass.mem : CClass → Char → Bool
  | .digit, c => c.isDigit
  | .space, c => isSpaceChar c
  | .upAlnum, c => c.isAlphanum
  | .d34, c => c = '3' || c = '4'

/-- The regular-expression fragment used by the scraper's patterns. -/
inductive RE where
  | eps
  | lit (s : String)
  | seq (a b : RE)
  | alt (a b : RE)
  | opt (a : RE)
  | cls (c : CClass) (lo : Nat) (hi : Option Nat)
  | wb
deriving DecidableEq

/-- Match a case-insensitive literal (ASCII case folding, as the only cased
characters in the patterns are ASCII). The Bool threaded through is whether
the previously consumed character is a word character (for `\b`). -/
def matchLit (s : List Char) (pw : Bool) (cs : List Char)
    (k : Bool → List Char → Bool) : Bool :=
  match s, cs with
  | [], _ => k pw cs
  | _ :: _, [] => false
  | a :: s', c :: cs' =>
    (a.toLower == c.toLower) && matchLit s' (isWordChar c) cs' k

/-- Greedy bounded repetition of a character class: consume as many class
characters as allowed, backtracking to shorter runs, requiring at least
`lo`. -/
def clsRun (cc : CClass) (lo : Nat) (hi : Option Nat) :
    Nat → Bool → List Char → (Bool → List Char → Bool) → Bool
  | taken, pw, [], k => decide (lo ≤ taken) && k pw []
  | taken, pw, c :: cs, k =>
    (if cc.mem c && (match hi with | none => true | some h => decide (taken + 1 ≤ h)) then
      clsRun cc lo hi (taken + 1) (isWordChar c) cs k
    else false)
    || (decide (lo ≤ taken) && k pw (c :: cs))

/-- Backtracking matcher in continuation-passing style; the continuation
receives the word-character flag of the last consumed character and the
remaining input. -/
def matchRE : RE → Bool → List Char → (Bool → List Char → Bool) → Bool
  | .eps, pw, cs, k => k pw cs
  | .lit s, pw, cs, k => matchLit s.toList pw cs k
  | .seq a b, pw, cs, k => matchRE a pw cs (fun pw' cs' => matchRE b pw' cs' k)
  | .alt a b, pw, cs, k => matchRE a pw cs k || matchRE b pw cs k
  | .opt a, pw, cs, k => matchRE a pw cs k || k pw cs
  | .cls c lo hi, pw, cs, k => clsRun c lo hi 0 pw cs k
  | .wb, pw, cs, k =>
    (pw != (match cs with | [] => false | c :: _ => isWordChar c)) && k pw cs

/-- Try to match at every position, as `pattern.search` does. -/
def searchFrom (r : RE) : Bool → List Char → Bool
  | pw, [] => matchRE r pw [] (fun _ _ => true)
  | pw, c :: cs => matchRE r pw (c :: cs) (fun _ _ => true) || searchFrom r (isWordChar c) cs

/-- Model of `pattern.search(t) is not None`. -/
def reSearch (r : RE) (t : String) : Bool :=
  searchFrom r false t.toList

/-- Alternation of a list of patterns (`"|".join(...)`); the lists used are
never empty. -/
def reAlts : List RE → RE
  | [] => .eps
  | [r] => r
  | r :: rs => .alt r (reAlts rs)

/-- `re.compile("|".join(map(re.escape, words)), re.IGNORECASE)`: an
alternation of literals. -/
def reWords (ws : List String) : RE := reAlts (ws.map RE.lit)

/-- A literal wrapped in `\b ... \b`. -/
def bword (s : String) : RE := .seq .wb (.seq (.lit s) .wb)

/-- The pattern `\s*`. -/
def spaces0 : RE := .cls .space 0 none

/-! ### Capacity extraction (`TB_RE`, `GB_RE`, `extract_capacity_gb_tb`,
`_hdd_extract_capacity_tb`) -/

/-- Maximal run of digits from the head: the digits and the rest. -/
def digitSpan : List Char → List Char × List Char
  | [] => ([], [])
  | c :: cs =>
    if c.isDigit then
      match digitSpan cs with
      | (ds, rest) => (c :: ds, rest)
    else ([], c :: cs)

/-- Skip the maximal run of whitespace (`\s*` before the unit). -/
def dropSpaces : List Char → List Char
  | [] => []
  | c :: cs => if isSpaceChar c then dropSpaces cs else c :: cs

def digitsToNat (ds : List Char) : Nat :=
  ds.foldl (fun n c => 10 * n + (c.toNat - '0'.toNat)) 0

/-- Try `TB_RE = (\d+(?:\.\d+)?)\s*TB` (case-insensitive) at the current
position; on success return the captured number (exact rational in place of
Python `float`) and the suffix after the match. Greedy runs never need
digit-level backtracking for this pattern: shortening a run leaves a digit
as the next character, which can start neither `\s*` progress nor `TB`. -/
def tbTryAt (cs : List Char) : Option (ℚ × List Char) :=
  match digitSpan cs with
  | ([], _) => none
  | (ds, r1) =>
    let fracTry : Option (ℚ × List Char) :=
      match r1 with
      | '.' :: r2 =>
        match digitSpan r2 with
        | ([], _) => none
        | (fs, r3) =>
          match dropSpaces r3 with
          | c1 :: c2 :: rest =>
            if (c1.toLower == 't') && (c2.toLower == 'b') then
              some ((digitsToNat ds : ℚ) + (digitsToNat fs : ℚ) / ((10 : ℚ) ^ fs.length), rest)
            else none
          | _ => none
      | _ => none
    match fracTry with
    | some v => some v
    | none =>
      match dropSpaces r1 with
      | c1 :: c2 :: rest =>
        if (c1.toLower == 't') && (c2.toLower == 'b') then
          some ((digitsToNat ds : ℚ), rest)
        else none
      | _ => none

/-- Scan for all `TB_RE` matches (`finditer`): try each position, resume
after a match. The fuel is the input length; every step consumes at least
one character. -/
def tbScanGo : Nat → List Char → List ℚ
  | 0, _ => []
  | _ + 1, [] => []
  | fuel + 1, c :: cs =>
    match tbTryAt (c :: cs) with
    | some (v, rest) => v :: tbScanGo fuel rest
    | none => tbScanGo fuel cs

def tbFindAll (t : String) : List ℚ := tbScanGo t.toList.length t.toList

/-- Try `GB_RE = (\d{2,5})\s*GB` (case-insensitive) at the current position.
Only the maximal digit run can succeed here: with fewer digits consumed the
next character is a digit, not `G` or whitespace. -/
def gbTryAt (cs : List Char) : Option (Nat × List Char) :=
  match digitSpan cs with
  | (ds, r1) =>
    if 2 ≤ ds.length && ds.length ≤ 5 then
      match dropSpaces r1 with
      | c1 :: c2 :: rest =>
        if (c1.toLower == 'g') && (c2.toLower == 'b') then some (digitsToNat ds, rest)
        else none
      | _ => none
    else none

def gbScanGo : Nat → List Char → List Nat
  | 0, _ => []
  | _ + 1, [] => []
  | fuel + 1, c :: cs =>
    match gbTryAt (c :: cs) with
    | some (v, rest) => v :: gbScanGo fuel rest
    | none => gbScanGo fuel cs

def gbFindAll (t : String) : List Nat := gbScanGo t.toList.length t.toList

def maxNat? : List Nat → Option Nat
  | [] => none
  | x :: xs => some (xs.foldl max x)

/-- Embedding of `extract_capacity_gb_tb`:
`(primary_gb, primary_tb, gbs, tbs)`. -/
def extract_capacity_gb_tb (title : String) :
    Option Int × Option ℚ × List Nat × List ℚ :=
  let tbs := tbFindAll title
  let gbs := gbFindAll title
  let primary_tb : Option ℚ := tbs.head?
  let primary_gb : Option Int :=
    match primary_tb with
    | none => (maxNat? gbs).map (fun n => (n : Int))
    | some tb => some (roundHalfEven (tb * 1024))
  (primary_gb, primary_tb, gbs, tbs)

/-- `sorted(set(xs))` for exact rationals. -/
def sortedDedupQ (xs : List ℚ) : List ℚ :=
  List.insertionSort (· ≤ ·) xs.eraseDups

/-- Embedding of `_hdd_extract_capacity_tb`: TB figures when any exist, else
GB figures divided by 1024; first (smallest) distinct value and the list of
distinct values. -/
def _hdd_extract_capacity_tb (title : String) : Option ℚ × List ℚ :=
  let tbs := tbFindAll title
  if tbs ≠ [] then
    let uniq := sortedDedupQ tbs
    (uniq.head?, uniq)
  else
    let gbs := (gbFindAll title).map (fun g => (g : ℚ))
    if gbs ≠ [] then
      let uniq_g := sortedDedupQ gbs
      ((uniq_g.head?).map (fun g => g / 1024), uniq_g.map (fun g => g / 1024))
    else (none, [])

/-! ### SSD keyword tables and compiled patterns -/

def SSD_ACCESSORY_WORDS : List String :=
  ["ケース", "エンクロージャ", "エンクロージャー", "外付けケース", "SSDケース", "SSD ケース",
   "M.2ケース", "M.2 ケース", "NVMeケース", "NVMe ケース", "USBケース", "USB ケース",
   "クレードル", "ドック", "ドッキング", "クローン", "クローンドック", "クローンスタンド",
   "変換", "アダプタ", "アダプター", "ケーブル", "SATA-USB", "USB-SATA", "NVMe-USB", "M.2-USB",
   "PCIe変換", "PCIe 変換", "変換基板", "ライザー", "延長ケーブル",
   "ヒートシンク", "放熱", "サーマル", "熱伝導", "サーマルパッド", "冷却",
   "ブラケット", "マウンタ", "マウンター", "トレイ", "ネジ", "工具",
   "ドライバー", "固定", "両面テープ", "XBOX"]

def SSD_PC_WORDS : List String :=
  ["ノートパソコン", "ゲーミングPC", "デスクトップ", "Mini PC", "ミニPC", "ワークステーション",
   "MacBook", "iMac", "Mac mini", "ThinkPad", "Chromebook", "NAS本体", "NAS キット"]

def SSD_OTHER_MEDIA_WORDS : List String :=
  ["USBメモリ", "USBフラッシュ", "フラッシュドライブ", "SDカード", "microSD", "メモリーカード",
   "CFexpress", "カードリーダー", "HDD", "ハードディスク", "Blu-ray", "DVD"]

def _SSD_ACCESSORY_RE : RE := reWords SSD_ACCESSORY_WORDS

def _SSD_PC_RE : RE := reWords SSD_PC_WORDS

def _SSD_OTHER_RE : RE := reWords SSD_OTHER_MEDIA_WORDS

/-- `\bSSD\b|ソリッドステート|Solid State`. -/
def _SSD_RE : RE := reAlts [bword "SSD", .lit "ソリッドステート", .lit "Solid State"]

/-- Inline pattern `USBメモリ|SDカード|microSD|メモリーカード` of `ssd_classify`. -/
def ssdUsbSdRE : RE := reWords ["USBメモリ", "SDカード", "microSD", "メモリーカード"]

/-- Inline pattern `\bHDD\b|ハードディスク` (used by both classifiers). -/
def hddWordRE : RE := reAlts [bword "HDD", .lit "ハードディスク"]

/-- Inline pattern `NVMe|M\.2|PCIe|SATA|ソリッドステート|内蔵|外付け|ポータブル`
(the `ssdish` hint set). -/
def ssdHintExtraRE : RE :=
  reWords ["NVMe", "M.2", "PCIe", "SATA", "ソリッドステート", "内蔵", "外付け", "ポータブル"]

def _SSD_IFACE_HINTS : List (String × RE) :=
  [("Thunderbolt", reWords ["Thunderbolt", "TB3", "TB4"]),
   ("USB", reAlts [.lit "USB", .seq (.lit "Type") (.seq (.opt (.lit "-")) (.lit "C")), .lit "UASP"]),
   ("NVMe", reAlts [.lit "NVMe", .lit "PCIe",
      .seq (.lit "Gen") (.seq spaces0 (.cls .d34 1 (some 1))), .lit "M.2"]),
   ("SATA", reAlts [.lit "SATA", .seq (.lit "Serial") (.seq spaces0 (.lit "ATA")), .lit "2.5"])]

def _SSD_FORM_HINTS : List (String × RE) :=
  [("M.2", reAlts [bword "M.2", .lit "2280", .lit "2230", .lit "2242", .lit "2260"]),
   ("2.5inch", reWords ["2.5", "2.5インチ", "7mm", "9.5mm"]),
   ("Portable", reWords ["ポータブル", "外付け", "Portable", "External"])]

def _SSD_BRANDS : List (String × RE) :=
  [("Samsung", reAlts [bword "Samsung", .lit "サムスン"]),
   ("Western Digital", reAlts [.seq (.lit "Western") (.seq spaces0 (.lit "Digital")), bword "WD"]),
   ("SanDisk", reWords ["SanDisk", "サンディスク"]),
   ("Crucial", reWords ["Crucial", "クルーシャル"]),
   ("Micron", bword "Micron"),
   ("Kingston", reWords ["Kingston", "キングストン"]),
   ("SK hynix", reAlts [.seq (.lit "SK") (.seq spaces0 (.lit "hynix")), .lit "SKhynix",
      .lit "エスケーハイニックス"]),
   ("KIOXIA", reWords ["KIOXIA", "キオクシア"]),
   ("Toshiba", reWords ["TOSHIBA", "東芝"]),
   ("Seagate", reWords ["Seagate", "シーゲイト", "FireCuda"]),
   ("Solidigm", reWords ["Solidigm"]),
   ("Intel", bword "Intel"),
   ("Corsair", reWords ["Corsair", "コルセア"]),
   ("ADATA", bword "ADATA"),
   ("Team", reAlts [.seq (.lit "Team") (.opt (.lit "Group")),
      .seq (.lit "Team") (.seq spaces0 (.lit "Group")), .lit "チーム"]),
   ("Silicon Power", .seq (.lit "Silicon") (.seq spaces0 (.lit "Power"))),
   ("Patriot", reWords ["Patriot"]),
   ("Transcend", reWords ["Transcend", "トランセンド"]),
   ("Sabrent", reWords ["Sabrent"]),
   ("PNY", bword "PNY"),
   ("Lexar", reWords ["Lexar"]),
   ("GIGABYTE", reWords ["GIGABYTE"]),
   ("MSI", bword "MSI"),
   ("BUFFALO", reWords ["BUFFALO", "バッファロー"]),
   ("IODATA", reAlts [.seq (.lit "IO") (.seq spaces0 (.lit "DATA")), .lit "IODATA",
      .lit "アイ・オー", .lit "アイオー"]),
   ("ELECOM", reWords ["ELECOM", "エレコム"])]

/-- First label whose pattern matches the title, `""` when none does (the
shared loop shape of `ssd_guess_brand` / `ssd_extract_iface` /
`ssd_extract_form` / `hdd_guess_brand` / `hdd_extract_iface`). -/
def firstHit (hints : List (String × RE)) (t : String) : String :=
  match hints with
  | [] => ""
  | (n, r) :: rest => if reSearch r t then n else firstHit rest t

def ssd_guess_brand (t : String) : String := firstHit _SSD_BRANDS t

def ssd_extract_iface (t : String) : String := firstHit _SSD_IFACE_HINTS t

def ssd_extract_form (t : String) : String := firstHit _SSD_FORM_HINTS t

/-! ### `ssd_classify` -/

/-- The nested other-media block of `ssd_classify` (lines 649-655);
`none` means fall through. -/
def ssdOtherMediaCheck (t : String) : Option (String × String) :=
  if reSearch _SSD_OTHER_RE t then
    if ¬ reSearch _SSD_RE t then some ("other", "non-ssd media")
    else if reSearch ssdUsbSdRE t then some ("other", "usb/sd mixed")
    else if reSearch hddWordRE t then some ("other", "hdd keyword")
    else none
  else none

/-- The capacity-consistency block of `ssd_classify` (lines 666-687);
`none` means the capacity is consistent. Python float constants are exact
rationals here (`0.2` = 1/5); `int(x * 0.10)` is truncated division by 10,
which agrees with the float computation on the query parser's 2-5 digit
targets. The final `(none, none)` target case is unreachable: the caller
guards on a known target. -/
def ssdCapacityCheck (t : String) (target_gb : Option Int) (target_tb : Option ℚ) :
    Option (String × String) :=
  match extract_capacity_gb_tb t with
  | (cap_gb, cap_tb, gb_list, tb_list) =>
    if 1 < ((tb_list.map roundQ3).eraseDups).length
        ∨ (1 < gb_list.eraseDups.length ∧ target_tb = none) then
      some ("other", "multi-capacity listing")
    else if cap_tb = none ∧ cap_gb = none then some ("other", "no capacity")
    else
      match target_tb with
      | some ttb =>
        match cap_tb with
        | none =>
          match cap_gb with
          | none => some ("other", "capacity mismatch")
          | some cg =>
            if 80 < |cg - roundHalfEven (ttb * 1024)| ∧ 80 < |cg - roundHalfEven (ttb * 1000)| then
              some ("other", "capacity mismatch")
            else none
        | some ctb =>
          if (1 : ℚ)/5 < |ctb - ttb| then some ("other", "capacity mismatch") else none
      | none =>
        match target_gb with
        | some tgb =>
          match cap_gb with
          | none => some ("other", "capacity mismatch")
          | some cg =>
            if max 20 (Int.tdiv tgb 10) < |cg - tgb| then some ("other", "capacity mismatch")
            else none
        | none => none

/-- Inline pattern `外付け|ポータブル|Portable|External` of the subtype stage. -/
def ssdExternalRE : RE := reWords ["外付け", "ポータブル", "Portable", "External"]

/-- Inline pattern `NVMe|PCIe|M\.2|Gen\s*[34]` of the subtype stage. -/
def ssdNvmeRE : RE :=
  reAlts [.lit "NVMe", .lit "PCIe", .lit "M.2",
    .seq (.lit "Gen") (.seq spaces0 (.cls .d34 1 (some 1)))]

/-- Inline pattern `SATA|2\.5|2\.5インチ|Serial\s*ATA` of the subtype stage. -/
def ssdSataRE : RE :=
  reAlts [.lit "SATA", .lit "2.5", .lit "2.5インチ",
    .seq (.lit "Serial") (.seq spaces0 (.lit "ATA"))]

/-- The subtype stage of `ssd_classify` (lines 689-699). -/
def ssdSubtype (t : String) : String × String :=
  let iface := ssd_extract_iface t
  let form := ssd_extract_form t
  if reSearch ssdExternalRE t || (iface == "USB") || (iface == "Thunderbolt") then
    ("drive_external", "external hints")
  else if reSearch ssdNvmeRE t || (form == "M.2") then
    ("drive_internal_nvme", "nvme/m.2 hints")
  else if reSearch ssdSataRE t || (form == "2.5inch") then
    ("drive_internal_sata", "sata/2.5 hints")
  else ("drive_internal_sata", "generic ssd")

/-- Embedding of `ssd_classify` (lines 639-699). -/
def ssd_classify (title : String) (target_gb : Option Int) (target_tb : Option ℚ)
    (capacity_match_enabled : Bool) : String × String :=
  if title = "" then ("other", "empty title")
  else if reSearch _SSD_ACCESSORY_RE title then ("accessory", "accessory keyword")
  else if reSearch _SSD_PC_RE title then ("pc_device", "pc/device keyword")
  else
    match ssdOtherMediaCheck title with
    | some r => r
    | none =>
      if ¬ (reSearch _SSD_RE title || reSearch ssdHintExtraRE title) then
        ("other", "no ssd hints")
      else
        match (if capacity_match_enabled ∧ (target_tb ≠ none ∨ target_gb ≠ none) then
                ssdCapacityCheck title target_gb target_tb
              else none) with
        | some r => r
        | none => ssdSubtype title

/-! ### HDD keyword tables, compiled patterns and `hdd_classify` -/

def HDD_ACCESSORY_WORDS : List String :=
  ["ケース", "スタンド", "ドック", "ドッキング", "クローン",
   "エンクロージャ", "変換", "アダプタ", "ケーブル",
   "ブラケット", "マウンタ", "トレイ", "ネジ", "工具",
   "RAIDケース", "RAID ケース", "HDDケース", "HDD ケース", "SSDケース", "SSD ケース",
   "クレードル", "ハブ", "USBハブ", "電源アダプタ", "XBOX"]

def HDD_NAS_DEVICE_WORDS : List String :=
  ["Synology", "QNAP", "NASync", "2ベイ", "4ベイ", "5ベイ", "6ベイ", "8ベイ",
   "DiskStation", "TerraMaster", "Asustor"]

def _HDD_ACCESSORY_RE : RE := reWords HDD_ACCESSORY_WORDS

def _HDD_NAS_RE : RE := reWords HDD_NAS_DEVICE_WORDS

/-- `\bHDD\b|ハードディスク|ハードドライブ|Hard Drive|内蔵|外付け|外付|ポータブル`. -/
def _HDD_HINT_RE : RE :=
  reAlts [bword "HDD", .lit "ハードディスク", .lit "ハードドライブ", .lit "Hard Drive",
    .lit "内蔵", .lit "外付け", .lit "外付", .lit "ポータブル"]

/-- `\bSSD\b|ソリッドステート`. -/
def _HDD_SSD_RE : RE := reAlts [bword "SSD", .lit "ソリッドステート"]

/-- Inline pattern `NAS向け|NAS用|NAS向けHDD|NAS 用` (re-admits NAS-suited
drives). -/
def hddNasQualifierRE : RE := reWords ["NAS向け", "NAS用", "NAS向けHDD", "NAS 用"]

def _HDD_IFACE_HINTS : List (String × RE) :=
  [("SAS", reAlts [bword "SAS", .lit "Serial Attached SCSI"]),
   ("SATA", bword "SATA"),
   ("USB", reAlts [bword "USB", .lit "USB3.",
      .seq (.lit "Type") (.seq (.opt (.lit "-")) (.lit "C")), .lit "Thunderbolt"]),
   ("NVMe", reAlts [bword "NVMe", .lit "M.2"])]

/-- `\bST\d{4,6}[A-Z0-9]{2,}\b`. -/
def _SEAGATE_MODEL_RE : RE :=
  .seq .wb (.seq (.lit "ST") (.seq (.cls .digit 4 (some 6)) (.seq (.cls .upAlnum 2 none) .wb)))

/-- `\bWD\d{4,6}[A-Z0-9]{2,}\b`. -/
def _WD_MODEL_RE : RE :=
  .seq .wb (.seq (.lit "WD") (.seq (.cls .digit 4 (some 6)) (.seq (.cls .upAlnum 2 none) .wb)))

/-- `\bHDW[A-Z0-9]{4,}\b|\bMG\d{2}\b|\bN300\b|\bX300\b|\bP300\b`. -/
def _TOSHIBA_MODEL_RE : RE :=
  reAlts [.seq .wb (.seq (.lit "HDW") (.seq (.cls .upAlnum 4 none) .wb)),
    .seq .wb (.seq (.lit "MG") (.seq (.cls .digit 2 (some 2)) .wb)),
    bword "N300", bword "X300", bword "P300"]

/-- `\bHUH\d{3,}\b|\bHUS\d{3,}\b`. -/
def _HGST_MODEL_RE : RE :=
  reAlts [.seq .wb (.seq (.lit "HUH") (.seq (.cls .digit 3 none) .wb)),
    .seq .wb (.seq (.lit "HUS") (.seq (.cls .digit 3 none) .wb))]

/-- Embedding of `hdd_has_drive_model_hint`. -/
def hdd_has_drive_model_hint (t : String) : Bool :=
  reSearch _SEAGATE_MODEL_RE t || reSearch _WD_MODEL_RE t ||
  reSearch _TOSHIBA_MODEL_RE t || reSearch _HGST_MODEL_RE t

def _HDD_MAKERS : List (String × RE) :=
  [("Seagate", reWords ["Seagate", "シーゲイト", "BarraCuda", "IronWolf", "Exos", "SkyHawk"]),
   ("Western Digital", reAlts [.lit "Western Digital", .lit "ウエスタンデジタル", bword "WD",
      .lit "WD Red", .lit "WD Blue", .lit "WD Black", .lit "WD Purple",
      .lit "Gold", .lit "Ultrastar"]),
   ("Toshiba", reAlts [.lit "TOSHIBA", .lit "東芝", .lit "N300", .lit "X300", .lit "P300",
      .seq (.lit "MG") (.cls .digit 2 (some 2)), .seq (.lit "DT") (.cls .digit 2 (some 2))]),
   ("HGST", reAlts [bword "HGST", .lit "Hitachi Global Storage"]),
   ("Hitachi", reAlts [bword "Hitachi", .lit "日立"])]

def _HDD_EXTRA : List (String × RE) :=
  [("BUFFALO", reWords ["BUFFALO", "バッファロー"]),
   ("IODATA", reWords ["IO DATA", "IODATA", "アイ・オー", "アイオー"]),
   ("ELECOM", reWords ["ELECOM", "エレコム"])]

/-- Embedding of `hdd_guess_brand`: makers first, then the extra brands. -/
def hdd_guess_brand (t : String) : String :=
  match firstHit _HDD_MAKERS t with
  | "" => firstHit _HDD_EXTRA t
  | n => n

def hdd_extract_iface (t : String) : String := firstHit _HDD_IFACE_HINTS t

/-- `3\.5\s*(?:インチ|inch|in)`. -/
def _FF35_RE : RE :=
  .seq (.lit "3.5") (.seq spaces0 (reAlts [.lit "インチ", .lit "inch", .lit "in"]))

/-- `2\.5\s*(?:インチ|inch|in)`. -/
def _FF25_RE : RE :=
  .seq (.lit "2.5") (.seq spaces0 (reAlts [.lit "インチ", .lit "inch", .lit "in"]))

/-- Embedding of `hdd_extract_form_factor`. -/
def hdd_extract_form_factor (t : String) : Option ℚ :=
  if reSearch _FF35_RE t then some (7/2)
  else if reSearch _FF25_RE t then some (5/2)
  else none

/-- The capacity-consistency block of `hdd_classify` (lines 779-785);
`none` means the capacity is consistent. The `none` target case is
unreachable: the caller guards on a known target. -/
def hddCapacityCheck (t : String) (target_tb : Option ℚ) : Option (String × String) :=
  match _hdd_extract_capacity_tb t with
  | (cap0, cap_list) =>
    match target_tb with
    | none => none
    | some ttb =>
      if 1 < ((cap_list.map roundQ3).eraseDups).length then
        some ("other", "multi-capacity listing")
      else
        match cap0 with
        | none => some ("other", "no capacity")
        | some c0 =>
          if (1 : ℚ)/5 < |c0 - ttb| then some ("other", "capacity mismatch") else none

/-- Inline pattern `内蔵|3\.5|2\.5|SATA|SAS`. -/
def hddInternalRE : RE := reWords ["内蔵", "3.5", "2.5", "SATA", "SAS"]

/-- Inline pattern `外付け|外付|ポータブル|USB`. -/
def hddExternalRE : RE := reWords ["外付け", "外付", "ポータブル", "USB"]

/-- Inline pattern `ハードディスク|HDD` of the final internal check. -/
def hddFinalRE : RE := reWords ["ハードディスク", "HDD"]

/-- The hint/subtype stage of `hdd_classify` (lines 787-800). -/
def hddSubtype (t : String) : String × String :=
  let hdd_hint := reSearch _HDD_HINT_RE t
  let model_hint := hdd_has_drive_model_hint t
  let brand := hdd_guess_brand t
  let is_internal := reSearch hddInternalRE t
  let is_external := reSearch hddExternalRE t
  if hdd_hint || model_hint || (brand != "") then
    if is_external && !is_internal then ("drive_external", "external HDD-like")
    else if is_internal || model_hint || reSearch hddFinalRE t then
      ("drive_internal", "internal HDD-like")
    else ("other", "not HDD-like")
  else ("other", "not HDD-like")

/-- Embedding of `hdd_classify` (lines 763-800). -/
def hdd_classify (title : String) (target_tb : Option ℚ) (capacity_match_enabled : Bool)
    (no_recommended_offer : Bool) : String × String :=
  if no_recommended_offer then ("other", "no recommended offer")
  else if reSearch _HDD_ACCESSORY_RE title then ("accessory", "accessory keyword")
  else if reSearch _HDD_NAS_RE title ∧ ¬ reSearch hddNasQualifierRE title then
    ("nas_device", "NAS device keyword")
  else if reSearch _HDD_SSD_RE title ∧ ¬ reSearch hddWordRE title then
    ("other", "SSD keyword")
  else
    match (if capacity_match_enabled ∧ target_tb ≠ none then
            hddCapacityCheck title target_tb
          else none) with
    | some r => r
    | none => hddSubtype title

/-! ### Per-row category assignment in `run_scrape_one` (brand-only mode) -/

/-- Python `str.startswith` (structurally, so that it evaluates by
`decide`). -/
def strStartsWith (s p : String) : Bool := List.isPrefixOf p.toList s.toList

/-- Python `any(rex.search(title) for _n, rex in _HDD_MAKERS)`. -/
def hddIsMaker (t : String) : Bool :=
  _HDD_MAKERS.any (fun nr => reSearch nr.2 t)

/-- Category/reason assignment for one SSD row (`run_scrape_one` lines
926-933): raw mode, then the bad-offer block, then classification with the
brand-only override. -/
def ssdRowCategory (raw brand_only bad_offer : Bool) (title : String)
    (target_gb : Option Int) (target_tb : Option ℚ) (cme : Bool) : String × String :=
  if raw then ("raw", "raw mode")
  else if bad_offer then ("bad_offer", "featured offer missing")
  else
    let cr := ssd_classify title target_gb target_tb cme
    if brand_only ∧ ssd_guess_brand title = "" then ("other", "brand-only: unknown brand")
    else cr

/-- Category/reason assignment for one HDD row (`run_scrape_one` lines
947-954): raw mode, then classification; brand-only downgrades only
categories starting with `drive_` whose title matches no maker pattern. -/
def hddRowCategory (raw brand_only no_offer : Bool) (title : String)
    (target_tb : Option ℚ) (cme : Bool) : String × String :=
  if raw then ("raw", "raw mode")
  else
    let cr := hdd_classify title target_tb cme no_offer
    if brand_only ∧ strStartsWith cr.1 "drive_" ∧ hddIsMaker title = false then
      ("other", "not drive maker")
    else cr

/-- C7 (amended): in brand-only mode, the SSD pipeline downgrades every
non-raw, non-bad-offer item without a brand match to `other`, whatever its
prior category; the HDD pipeline downgrades exactly the items classified
`drive_*` whose title matches no maker pattern, and keeps every other
category unchanged. -/
theorem brand_only_downgrade_amended :
    (∀ (t : String) (tg : Option Int) (tt : Option ℚ) (cme : Bool),
      ssd_guess_brand t = "" →
        ssdRowCategory false true false t tg tt cme = ("other", "brand-only: unknown brand"))
  ∧ (∀ (t : String) (tg : Option Int) (tt : Option ℚ) (cme : Bool),
      ssd_guess_brand t ≠ "" →
        ssdRowCategory false true false t tg tt cme = ssd_classify t tg tt cme)
  ∧ (∀ (t : String) (tt : Option ℚ) (cme noff : Bool),
      strStartsWith (hdd_classify t tt cme noff).1 "drive_" → hddIsMaker t = false →
        hddRowCategory false true noff t tt cme = ("other", "not drive maker"))
  ∧ (∀ (t : String) (tt : Option ℚ) (cme noff : Bool),
      ¬ (strStartsWith (hdd_classify t tt cme noff).1 "drive_" ∧ hddIsMaker t = false) →
        hddRowCategory false true noff t tt cme = hdd_classify t tt cme noff) := by
  refine ⟨?_, ?_, ?_, ?_⟩
  · intro t tg tt cme h
    simp [ssdRowCategory, h]
  · intro t tg tt cme h
    simp [ssdRowCategory, h]
  · intro t tt cme noff h1 h2
    simp [hddRowCategory, h1, h2]
  · intro t tt cme noff h
    rw [hddRowCategory]
    simp only [if_false, Bool.false_eq_true]
    rw [if_neg]
    intro hc
    exact h ⟨hc.2.1, hc.2.2⟩

/-- Witness for C7 (amended): a brandless SSD accessory title is downgraded,
a branded SSD title keeps its classification; an HDD `drive_*` item without
a maker is downgraded, and an HDD accessory item is kept (not downgraded). -/
theorem brand_only_downgrade_amended_witness :
    ssdRowCategory false true false "ノーブランド 2.5インチ SSD" none none false
      = ("other", "brand-only: unknown brand")
  ∧ ssdRowCategory false true false "Crucial SSD" none none false
      = ssd_classify "Crucial SSD" none none false
  ∧ hddRowCategory false true false "外付けHDD 4TB" none false = ("other", "not drive maker")
  ∧ hddRowCategory false true false "ケース" none false = hdd_classify "ケース" none false false :=
  ⟨brand_only_downgrade_amended.1 "ノーブランド 2.5インチ SSD" none none false (by decide),
   brand_only_downgrade_amended.2.1 "Crucial SSD" none none false (by decide),
   brand_only_downgrade_amended.2.2.1 "外付けHDD 4TB" none false false (by decide) (by decide),
   brand_only_downgrade_amended.2.2.2 "ケース" none false false (by decide)⟩

/-- Counterexample to C7 as stated: in brand-only mode an HDD listing titled
`ケース` (an accessory, no maker pattern matches) keeps category
`accessory`; it is not downgraded to `other`. -/
theorem brand_only_accessory_counterexample :
    hddRowCategory false true false "ケース" (some 2) true = ("accessory", "accessory keyword")
  ∧ hddIsMaker "ケース" = false
  ∧ ("accessory" : String) ≠ "other" := by
  refine ⟨by decide, by decide, by decide⟩

/-! ### Totality of the classifiers (C9) -/

theorem ssdOtherMediaCheck_shape {t : String} {r : String × String}
    (h : ssdOtherMediaCheck t = some r) :
    r = ("other", "non-ssd media") ∨ r = ("other", "usb/sd mixed")
      ∨ r = ("other", "hdd keyword") := by
  unfold ssdOtherMediaCheck at h
  repeat' split at h
  all_goals simp_all

theorem ssdCapacityCheck_shape {t : String} {tg : Option Int} {tt : Option ℚ}
    {r : String × String} (h : ssdCapacityCheck t tg tt = some r) :
    r = ("other", "multi-capacity listing") ∨ r = ("other", "no capacity")
      ∨ r = ("other", "capacity mismatch") := by
  unfold ssdCapacityCheck at h
  repeat' split at h
  all_goals simp_all

theorem ssdSubtype_ne (t : String) :
    (ssdSubtype t).1 ≠ "" ∧ (ssdSubtype t).2 ≠ "" := by
  simp only [ssdSubtype]
  split_ifs <;> exact ⟨by decide, by decide⟩

theorem hddCapacityCheck_shape {t : String} {tt : Option ℚ}
    {r : String × String} (h : hddCapacityCheck t tt = some r) :
    r = ("other", "multi-capacity listing") ∨ r = ("other", "no capacity")
      ∨ r = ("other", "capacity mismatch") := by
  unfold hddCapacityCheck at h
  repeat' split at h
  all_goals simp_all

theorem hddSubtype_ne (t : String) :
    (hddSubtype t).1 ≠ "" ∧ (hddSubtype t).2 ≠ "" := by
  simp only [hddSubtype]
  split_ifs <;> exact ⟨by decide, by decide⟩

/-- C9: both classifiers are total Lean functions (so no exception is
possible on any title or argument combination) and always return a nonempty
category together with a non-empty reason string. -/
theorem classifiers_total :
    (∀ (t : String) (tg : Option Int) (tt : Option ℚ) (cme : Bool),
      (ssd_classify t tg tt cme).1 ≠ "" ∧ (ssd_classify t tg tt cme).2 ≠ "")
  ∧ (∀ (t : String) (tt : Option ℚ) (cme noff : Bool),
      (hdd_classify t tt cme noff).1 ≠ "" ∧ (hdd_classify t tt cme noff).2 ≠ "") := by
  constructor
  · intro t tg tt cme
    unfold ssd_classify
    split
    · exact ⟨by decide, by decide⟩
    split
    · exact ⟨by decide, by decide⟩
    split
    · exact ⟨by decide, by decide⟩
    split
    · rename_i r hr
      rcases ssdOtherMediaCheck_shape hr with rfl | rfl | rfl <;> exact ⟨by decide, by decide⟩
    · split
      · exact ⟨by decide, by decide⟩
      · split
        · rename_i r hr
          split at hr
          · rcases ssdCapacityCheck_shape hr with rfl | rfl | rfl <;>
              exact ⟨by decide, by decide⟩
          · simp at hr
        · exact ssdSubtype_ne t
  · intro t tt cme noff
    unfold hdd_classify
    split
    · exact ⟨by decide, by decide⟩
    split
    · exact ⟨by decide, by decide⟩
    split
    · exact ⟨by decide, by decide⟩
    split
    · exact ⟨by decide, by decide⟩
    split
    · rename_i r hr
      split at hr
      · rcases hddCapacityCheck_shape hr with rfl | rfl | rfl <;>
          exact ⟨by decide, by decide⟩
      · simp at hr
    · exact hddSubtype_ne t

/-! ### The capacity-consistency claim (C1) -/

/-- Capacity tolerance in the claim's terms: TB target vs TB listing within
0.2 TB; TB target vs GB-only listing within 80 GB of either rounded
conversion (×1024 or ×1000); GB target vs GB listing within
`max(20, 10% of target)` (real arithmetic). -/
def capTolOK (target_gb : Option Int) (target_tb : Option ℚ)
    (cap_gb : Option Int) (cap_tb : Option ℚ) : Bool :=
  match target_tb with
  | some ttb =>
    match cap_tb with
    | some ctb => decide (|ctb - ttb| ≤ 1/5)
    | none =>
      match cap_gb with
      | some cg =>
        decide (|cg - roundHalfEven (ttb * 1024)| ≤ 80)
          || decide (|cg - roundHalfEven (ttb * 1000)| ≤ 80)
      | none => false
  | none =>
    match target_gb, cap_gb with
    | some tgb, some cg => decide (|(cg : ℚ) - (tgb : ℚ)| ≤ max 20 ((tgb : ℚ) / 10))
    | some _, none => false
    | none, _ => true

theorem int_le_tdiv_iff_cast_le {n G : Int} (hG : 0 ≤ G) :
    ((n : ℚ) ≤ (G : ℚ) / 10) ↔ n ≤ Int.tdiv G 10 := by
  rw [le_div_iff₀ (by norm_num : (0:ℚ) < 10)]
  rw [show ((10:ℚ)) = ((10:Int):ℚ) by norm_num, ← Int.cast_mul, Int.cast_le]
  rw [Int.tdiv_eq_ediv hG (by omega)]
  omega

/-- The real-arithmetic GB tolerance of the claim coincides with the code's
`max(20, int(target_gb * 0.10))` for nonnegative targets. -/
theorem gbTol_iff {cg tgb : Int} (hG : 0 ≤ tgb) :
    (|(cg : ℚ) - (tgb : ℚ)| ≤ max 20 ((tgb : ℚ) / 10))
      ↔ |cg - tgb| ≤ max 20 (Int.tdiv tgb 10) := by
  have hc : |(cg : ℚ) - (tgb : ℚ)| = ((|cg - tgb| : Int) : ℚ) := by
    push_cast
    rfl
  rw [hc, le_max_iff, le_max_iff]
  constructor
  · rintro (h | h)
    · left; exact_mod_cast h
    · right; exact (int_le_tdiv_iff_cast_le hG).mp h
  · rintro (h | h)
    · left; exact_mod_cast h
    · right; exact (int_le_tdiv_iff_cast_le hG).mpr h

theorem ssdCapCheck_chain (t : String) (tg : Option Int) (tt : Option ℚ)
    (cap_gb : Option Int) (cap_tb : Option ℚ) (gbs : List Nat) (tbs : List ℚ)
    (hext : extract_capacity_gb_tb t = (cap_gb, cap_tb, gbs, tbs))
    (h5 : tt ≠ none ∨ tg ≠ none) (h6 : ∀ g, tg = some g → 0 ≤ g) :
    ssdCapacityCheck t tg tt =
      (if 1 < ((tbs.map roundQ3).eraseDups).length
          ∨ (1 < gbs.eraseDups.length ∧ tt = none) then
        some ("other", "multi-capacity listing")
      else if cap_tb = none ∧ cap_gb = none then some ("other", "no capacity")
      else if capTolOK tg tt cap_gb cap_tb = false then some ("other", "capacity mismatch")
      else none) := by
  unfold ssdCapacityCheck
  rw [hext]
  dsimp only
  by_cases hm : 1 < ((tbs.map roundQ3).eraseDups).length
      ∨ (1 < gbs.eraseDups.length ∧ tt = none)
  · simp only [hm, if_true]
  · rw [if_neg hm, if_neg hm]
    by_cases hn : cap_tb = none ∧ cap_gb = none
    · simp only [hn, if_true, and_self]
    · rw [if_neg hn, if_neg hn]
      rcases tt with _ | ttb
      · rcases tg with _ | tgb
        · rcases h5 with h | h <;> simp at h
        · rcases cap_gb with _ | cg
          · simp [capTolOK]
          · have hG : 0 ≤ tgb := h6 tgb rfl
            have hiff : capTolOK (some tgb) none (some cg) cap_tb = false
                ↔ max 20 (Int.tdiv tgb 10) < |cg - tgb| := by
              simp only [capTolOK, decide_eq_false_iff_not]
              rw [gbTol_iff hG, not_le]
            dsimp only
            by_cases hc : max 20 (Int.tdiv tgb 10) < |cg - tgb|
            · rw [if_pos hc, if_pos (hiff.mpr hc)]
            · rw [if_neg hc, if_neg (fun hcc => hc (hiff.mp hcc))]
      · rcases cap_tb with _ | ctb
        · rcases cap_gb with _ | cg
          · simp [capTolOK]
          · have hiff : capTolOK tg (some ttb) (some cg) none = false
                ↔ (80 < |cg - roundHalfEven (ttb * 1024)|
                    ∧ 80 < |cg - roundHalfEven (ttb * 1000)|) := by
              simp only [capTolOK, Bool.or_eq_false_iff, decide_eq_false_iff_not, not_le]
            dsimp only
            by_cases hc : 80 < |cg - roundHalfEven (ttb * 1024)|
                ∧ 80 < |cg - roundHalfEven (ttb * 1000)|
            · rw [if_pos hc, if_pos (hiff.mpr hc)]
            · rw [if_neg hc, if_neg (fun hcc => hc (hiff.mp hcc))]
        · have hiff : capTolOK tg (some ttb) cap_gb (some ctb) = false
              ↔ (1 : ℚ)/5 < |ctb - ttb| := by
            simp only [capTolOK, decide_eq_false_iff_not, not_le]
          dsimp only
          by_cases hc : (1 : ℚ)/5 < |ctb - ttb|
          · rw [if_pos hc, if_pos (hiff.mpr hc)]
          · rw [if_neg hc, if_neg (fun hcc => hc (hiff.mp hcc))]

theorem hddCapCheck_chain (t : String) (ttb : ℚ) (cap0 : Option ℚ) (cap_list : List ℚ)
    (hext : _hdd_extract_capacity_tb t = (cap0, cap_list)) :
    hddCapacityCheck t (some ttb) =
      (if 1 < ((cap_list.map roundQ3).eraseDups).length then
        some ("other", "multi-capacity listing")
      else if cap0 = none then some ("other", "no capacity")
      else if capTolOK none (some ttb) none cap0 = false then
        some ("other", "capacity mismatch")
      else none) := by
  unfold hddCapacityCheck
  rw [hext]
  dsimp only
  by_cases hm : 1 < ((cap_list.map roundQ3).eraseDups).length
  · simp only [hm, if_true]
  · rw [if_neg hm, if_neg hm]
    rcases cap0 with _ | c0
    · simp
    · rw [if_neg (by simp : ¬ (some c0 = none))]
      have hiff : capTolOK none (some ttb) none (some c0) = false
          ↔ (1 : ℚ)/5 < |c0 - ttb| := by
        simp only [capTolOK, decide_eq_false_iff_not, not_le]
      dsimp only
      by_cases hc : (1 : ℚ)/5 < |c0 - ttb|
      · rw [if_pos hc, if_pos (hiff.mpr hc)]
      · rw [if_neg hc, if_neg (fun hcc => hc (hiff.mp hcc))]

/-- C1 (amended): when capacity matching is enabled, a target is known, and
the title reaches the capacity-consistency step (it is non-empty; no
accessory, pc-device or other-media rule fired; it has SSD hints — and on
the HDD side: no bad-offer signal, no accessory rule, no NAS-device rule,
no SSD-keyword rule fired), classification follows the capacity rules with
this multi-capacity reading: the SSD classifier rejects when the title
states more than one distinct (3-decimal-rounded) TB value, or more than one
distinct GB value with no TB target — distinct GB values beside a TB value
are tolerated under a TB target; the HDD classifier rejects when the
extracted TB-normalised value list (GB figures are considered only when no
TB figure occurs) holds more than one distinct value. The remaining rules
are as the claim states them: no extractable capacity rejects as `other`,
and the tolerance band `capTolOK` decides acceptance. -/
theorem classify_capacity_check_amended :
    (∀ (t : String) (tg : Option Int) (tt : Option ℚ) (cap_gb : Option Int)
        (cap_tb : Option ℚ) (gbs : List Nat) (tbs : List ℚ),
      t ≠ "" →
      reSearch _SSD_ACCESSORY_RE t = false →
      reSearch _SSD_PC_RE t = false →
      ssdOtherMediaCheck t = none →
      (reSearch _SSD_RE t || reSearch ssdHintExtraRE t) = true →
      (tt ≠ none ∨ tg ≠ none) →
      (∀ g, tg = some g → 0 ≤ g) →
      extract_capacity_gb_tb t = (cap_gb, cap_tb, gbs, tbs) →
      ssd_classify t tg tt true =
        (if 1 < ((tbs.map roundQ3).eraseDups).length
            ∨ (1 < gbs.eraseDups.length ∧ tt = none) then
          ("other", "multi-capacity listing")
        else if cap_tb = none ∧ cap_gb = none then ("other", "no capacity")
        else if capTolOK tg tt cap_gb cap_tb = false then ("other", "capacity mismatch")
        else ssdSubtype t))
  ∧ (∀ (t : String) (ttb : ℚ) (cap0 : Option ℚ) (cap_list : List ℚ),
      reSearch _HDD_ACCESSORY_RE t = false →
      ¬ (reSearch _HDD_NAS_RE t ∧ ¬ reSearch hddNasQualifierRE t) →
      ¬ (reSearch _HDD_SSD_RE t ∧ ¬ reSearch hddWordRE t) →
      _hdd_extract_capacity_tb t = (cap0, cap_list) →
      hdd_classify t (some ttb) true false =
        (if 1 < ((cap_list.map roundQ3).eraseDups).length then
          ("other", "multi-capacity listing")
        else if cap0 = none then ("other", "no capacity")
        else if capTolOK none (some ttb) none cap0 = false then ("other", "capacity mismatch")
        else hddSubtype t)) := by
  constructor
  · intro t tg tt cap_gb cap_tb gbs tbs h0 h1 h2 h3 h4 h5 h6 hext
    have hchain := ssdCapCheck_chain t tg tt cap_gb cap_tb gbs tbs hext h5 h6
    unfold ssd_classify
    rw [if_neg h0, if_neg (by simp [h1]), if_neg (by simp [h2]), h3]
    dsimp only
    rw [if_neg (by simp [h4]), if_pos ⟨rfl, h5⟩, hchain]
    split_ifs <;> rfl
  · intro t ttb cap0 cap_list h1 h2 h3 hext
    have hchain := hddCapCheck_chain t ttb cap0 cap_list hext
    unfold hdd_classify
    rw [if_neg (by simp), if_neg (by simp [h1]), if_neg h2, if_neg h3,
      if_pos ⟨rfl, by simp⟩, hchain]
    split_ifs <;> rfl

unseal Rat.mul Rat.add Rat.sub Rat.inv in
/-- Witness for C1 (amended) on titles that reach and pass the capacity
check on both sides. -/
theorem classify_capacity_check_amended_witness :
    ssd_classify "Crucial SSD 2TB" none (some 2) true = ("drive_internal_sata", "generic ssd")
  ∧ hdd_classify "Seagate HDD 4TB 内蔵" (some 4) true false
      = ("drive_internal", "internal HDD-like") := by
  constructor
  · have h := classify_capacity_check_amended.1 "Crucial SSD 2TB" none (some 2)
      (some 2048) (some 2) [] [2] (by decide) (by decide) (by decide) (by decide)
      (by decide) (Or.inl (by decide)) (fun g hg => nomatch hg) (by decide)
    rw [h]
    decide
  · have h := classify_capacity_check_amended.2 "Seagate HDD 4TB 内蔵" 4 (some 4) [4]
      (by decide) (by decide) (by decide) (by decide)
    rw [h]
    decide

unseal Rat.mul Rat.add Rat.sub Rat.inv in
/-- Counterexample to C1 as stated: the title `SSD 2TB 500GB` states two
distinct capacity values (2 TB = 2048 GB and 500 GB), yet with a 2 TB target
and capacity matching enabled the SSD classifier does not return `other` —
the GB figure is ignored because a TB figure and a TB target are present. -/
theorem multi_capacity_not_other_counterexample :
    tbFindAll "SSD 2TB 500GB" = [2]
  ∧ gbFindAll "SSD 2TB 500GB" = [500]
  ∧ (2 : ℚ) * 1024 ≠ (500 : ℚ)
  ∧ ssd_classify "SSD 2TB 500GB" none (some 2) true = ("drive_internal_sata", "generic ssd")
  ∧ ("drive_internal_sata" : String) ≠ "other" := by
  refine ⟨by decide, by decide, by decide, by decide, by decide⟩
